import Mathlib

/-!
# Verification of libyang's schema helper core (tree_schema_helpers.c)

A shallow embedding of the parsing/validation helper functions of the
libyang schema helper core, together with theorems settling the claims
about them.  C strings are modelled as `List Char` (the bytes before the
terminating NUL), machine integers as `Nat`, out-parameters as components
of the returned value, and the fallible functions return their `LY_ERR`
code next to the values they produce.
-/

set_option autoImplicit false
set_option linter.unusedVariables false

namespace LibYang

/-- The `LY_ERR` result codes used by the helper core (from `libyang.h`,
which is not part of the sources; only the codes that the embedded
functions actually return are modelled). -/
inductive LY_ERR where
  | LY_SUCCESS
  | LY_EINVAL
  | LY_EEXIST
  | LY_ENOTFOUND
  | LY_EDENIED
  | LY_EVALID
  deriving DecidableEq, Repr

open LY_ERR

/-! ## Lexical primitives: identifiers and nodeids (`lys_parse_id`, `lys_parse_nodeid`) -/

/-- Modelled from the spec: the identifier grammar of §4.A,
`ident = (ALPHA | '_') (ALPHA | DIGIT | '_' | '-' | '.')*` — the macro
`is_yangidentstartchar` lives in `common.h`, which is absent from the
sources. -/
def is_yangidentstartchar (c : Char) : Bool :=
  c.isAlpha || c = '_'

/-- Modelled from the spec: continuation characters of the §4.A identifier
grammar (`is_yangidentchar` of the absent `common.h`). -/
def is_yangidentchar (c : Char) : Bool :=
  c.isAlpha || c.isDigit || c = '_' || c = '-' || c = '.'

/-- Embedding of `lys_parse_id`: consume one identifier from the front of
the input.  The C advances the cursor; here the function returns the rest
of the input, `none` standing for the `LY_EINVAL` return on an invalid
starting character. -/
def lys_parse_id (s : List Char) : Option (List Char) :=
  match s with
  | [] => none
  | c :: rest => if is_yangidentstartchar c then some (rest.dropWhile is_yangidentchar) else none

/-- Embedding of `lys_parse_nodeid`: split one `(prefix?, name)` pair off
the front of the input, returning the prefix (when a `:` follows the first
identifier), the name, and the rest of the input. -/
def lys_parse_nodeid (s : List Char) :
    Option (Option (List Char) × List Char × List Char) :=
  match lys_parse_id s with
  | none => none
  | some rest1 =>
    let first := s.take (s.length - rest1.length)
    match rest1 with
    | ':' :: s2 =>
      match lys_parse_id s2 with
      | none => none
      | some rest2 => some (some first, s2.take (s2.length - rest2.length), rest2)
    | _ => some (none, first, rest1)

theorem lys_parse_id_length {s rest : List Char} (h : lys_parse_id s = some rest) :
    rest.length < s.length := by
  match s with
  | [] => simp [lys_parse_id] at h
  | c :: t =>
    simp only [lys_parse_id] at h
    split at h
    · cases h
      exact Nat.lt_succ_of_le (List.dropWhile_suffix is_yangidentchar).length_le
    · cases h

theorem lys_parse_nodeid_length {s : List Char} {pfx : Option (List Char)}
    {name rest : List Char} (h : lys_parse_nodeid s = some (pfx, name, rest)) :
    rest.length < s.length := by
  unfold lys_parse_nodeid at h
  split at h
  · cases h
  case _ rest1 h1 =>
    have hlt1 := lys_parse_id_length h1
    split at h
    case _ s2 =>
      have hs2 : s2.length + 1 < s.length := by
        simpa using hlt1
      split at h
      · cases h
      case _ rest2 h2 =>
        have hlt2 := lys_parse_id_length h2
        simp only [Option.some.injEq, Prod.mk.injEq] at h
        obtain ⟨-, -, rfl⟩ := h
        omega
    case _ =>
      simp only [Option.some.injEq, Prod.mk.injEq] at h
      obtain ⟨-, -, rfl⟩ := h
      exact hlt1

/-! ## Date validation (`lysp_check_date`) -/

/-- Modelled from the spec: Gregorian leap year (the calendrical check in
the C is delegated to libc `strptime`/`mktime`, outside the sources; the
spec demands a "real Gregorian date", e.g. rejecting 2018-02-29). -/
def isLeapYear (y : Nat) : Bool :=
  y % 4 = 0 && (y % 100 ≠ 0 || y % 400 = 0)

/-- Modelled from the spec: days of a Gregorian month (part of the
`strptime`/`mktime` stand-in). -/
def daysInMonth (y m : Nat) : Nat :=
  if m = 2 then (if isLeapYear y then 29 else 28)
  else if m = 4 || m = 6 || m = 9 || m = 11 then 30
  else 31

/-- Numeric value of a run of digit characters (most significant first). -/
def digitsToNat (cs : List Char) : Nat :=
  cs.foldl (fun acc c => acc * 10 + (c.toNat - '0'.toNat)) 0

/-- The format loop of `lysp_check_date`: positions 4 and 7 must hold
`'-'`, every other position a digit. -/
def dateFormatOk (date : List Char) : Bool :=
  (List.range 10).all fun i =>
    if i = 4 || i = 7 then date.getD i ' ' = '-' else (date.getD i ' ').isDigit

/-- Modelled from the spec: the `strptime`+`mktime` calendrical check
(libc, outside the sources) as a month-range and day-of-month test on the
year, month and day digits of a `YYYY-MM-DD` string. -/
def gregorianOk (date : List Char) : Prop :=
  1 ≤ digitsToNat ((date.drop 5).take 2) ∧ digitsToNat ((date.drop 5).take 2) ≤ 12 ∧
  1 ≤ digitsToNat ((date.drop 8).take 2) ∧
  digitsToNat ((date.drop 8).take 2) ≤
    daysInMonth (digitsToNat (date.take 4)) (digitsToNat ((date.drop 5).take 2))

instance (date : List Char) : Decidable (gregorianOk date) := by
  unfold gregorianOk
  exact inferInstance

/-- Embedding of `lysp_check_date`.  The length test (`LY_REV_SIZE - 1 =
10`) and the character-format loop are translated from the C; the
`strptime`+`mktime` calendrical check is the spec-modelled `gregorianOk`. -/
def lysp_check_date (date : List Char) (date_len : Nat) : LY_ERR :=
  if date_len ≠ 10 then LY_EINVAL
  else if ¬ dateFormatOk date then LY_EINVAL
  else if gregorianOk date then LY_SUCCESS
  else LY_EINVAL

/-- The claim's acceptance set, written from its words: exactly 10 bytes,
`'-'` at positions 4 and 7, digits elsewhere, and the digits denote a real
Gregorian date (canonical form and the range 0000-01-01 .. 9999-12-31 are
forced by the fixed four-two-two digit layout). -/
def validRevisionDate (date : List Char) : Prop :=
  date.length = 10 ∧
  date.getD 4 ' ' = '-' ∧ date.getD 7 ' ' = '-' ∧
  (∀ i < 10, i ≠ 4 → i ≠ 7 → (date.getD i ' ').isDigit) ∧
  gregorianOk date

instance (date : List Char) : Decidable (validRevisionDate date) := by
  unfold validRevisionDate
  exact inferInstance

theorem dateFormatOk_iff (date : List Char) :
    dateFormatOk date = true ↔
      (date.getD 4 ' ' = '-' ∧ date.getD 7 ' ' = '-' ∧
        ∀ i < 10, i ≠ 4 → i ≠ 7 → (date.getD i ' ').isDigit) := by
  unfold dateFormatOk
  rw [List.all_eq_true]
  constructor
  · intro h
    refine ⟨?_, ?_, ?_⟩
    · have := h 4 (by simp)
      simpa using this
    · have := h 7 (by simp)
      simpa using this
    · intro i hi h4 h7
      have := h i (by simpa using hi)
      simp only [h4, h7] at this
      simpa [h4, h7] using this
  · rintro ⟨h4, h7, hd⟩ i hi
    simp only [List.mem_range] at hi
    by_cases e4 : i = 4
    · subst e4; simpa using h4
    · by_cases e7 : i = 7
      · subst e7; simpa using h7
      · simpa [e4, e7] using hd i hi e4 e7

/-! ## Built-in type recognition (`lysp_type_str2builtin`) -/

/-- The `LY_DATA_TYPE` enumeration (from `tree_schema.h`, absent from the
sources); `LY_TYPE_UNKNOWN` is the zero value that the C tests for
truthiness. -/
inductive LY_DATA_TYPE where
  | LY_TYPE_UNKNOWN
  | LY_TYPE_BINARY
  | LY_TYPE_BITS
  | LY_TYPE_BOOL
  | LY_TYPE_DEC64
  | LY_TYPE_EMPTY
  | LY_TYPE_ENUM
  | LY_TYPE_INT8
  | LY_TYPE_INT16
  | LY_TYPE_INT32
  | LY_TYPE_INT64
  | LY_TYPE_INST
  | LY_TYPE_IDENT
  | LY_TYPE_LEAFREF
  | LY_TYPE_STRING
  | LY_TYPE_UNION
  | LY_TYPE_UINT8
  | LY_TYPE_UINT16
  | LY_TYPE_UINT32
  | LY_TYPE_UINT64
  deriving DecidableEq, Repr

open LY_DATA_TYPE

/-- `strncmp(&name[i], pat, pat.length) == 0`: the bytes of `name` from
position `i` agree with the whole of `pat`.  (In every use below the
enclosing length guards keep the compared region inside the string, so
the NUL-stop of C `strncmp` never fires.) -/
def strncmpEq (s : List Char) (i : Nat) (pat : List Char) : Bool :=
  (s.drop i).take pat.length == pat

/-- The `name[0] == 'b'` arm of the dispatch in `lysp_type_str2builtin`. -/
def str2builtin_b (name : List Char) (len : Nat) : LY_DATA_TYPE :=
  if strncmpEq name 1 ['i'] then
    if len = 6 ∧ strncmpEq name 2 "nary".toList then LY_TYPE_BINARY
    else if len = 4 ∧ strncmpEq name 2 "ts".toList then LY_TYPE_BITS
    else LY_TYPE_UNKNOWN
  else if len = 7 ∧ strncmpEq name 1 "oolean".toList then LY_TYPE_BOOL
  else LY_TYPE_UNKNOWN

/-- The `name[0] == 'd'` arm of the dispatch in `lysp_type_str2builtin`. -/
def str2builtin_d (name : List Char) (len : Nat) : LY_DATA_TYPE :=
  if len = 9 ∧ strncmpEq name 1 "ecimal64".toList then LY_TYPE_DEC64
  else LY_TYPE_UNKNOWN

/-- The `name[0] == 'e'` arm of the dispatch in `lysp_type_str2builtin`. -/
def str2builtin_e (name : List Char) (len : Nat) : LY_DATA_TYPE :=
  if len = 5 ∧ strncmpEq name 1 "mpty".toList then LY_TYPE_EMPTY
  else if len = 11 ∧ strncmpEq name 1 "numeration".toList then LY_TYPE_ENUM
  else LY_TYPE_UNKNOWN

/-- The `name[0] == 'i'` arm of the dispatch in `lysp_type_str2builtin`. -/
def str2builtin_i (name : List Char) (len : Nat) : LY_DATA_TYPE :=
  if strncmpEq name 1 ['n'] then
    if len = 4 ∧ strncmpEq name 2 "t8".toList then LY_TYPE_INT8
    else if len = 5 then
      if strncmpEq name 2 "t16".toList then LY_TYPE_INT16
      else if strncmpEq name 2 "t32".toList then LY_TYPE_INT32
      else if strncmpEq name 2 "t64".toList then LY_TYPE_INT64
      else LY_TYPE_UNKNOWN
    else if len = 19 ∧ strncmpEq name 2 "stance-identifier".toList then LY_TYPE_INST
    else LY_TYPE_UNKNOWN
  else if len = 11 ∧ strncmpEq name 1 "dentityref".toList then LY_TYPE_IDENT
  else LY_TYPE_UNKNOWN

/-- The `name[0] == 'l'` arm of the dispatch in `lysp_type_str2builtin`. -/
def str2builtin_l (name : List Char) (len : Nat) : LY_DATA_TYPE :=
  if len = 7 ∧ strncmpEq name 1 "eafref".toList then LY_TYPE_LEAFREF
  else LY_TYPE_UNKNOWN

/-- The `name[0] == 's'` arm of the dispatch in `lysp_type_str2builtin`. -/
def str2builtin_s (name : List Char) (len : Nat) : LY_DATA_TYPE :=
  if len = 6 ∧ strncmpEq name 1 "tring".toList then LY_TYPE_STRING
  else LY_TYPE_UNKNOWN

/-- The `name[0] == 'u'` arm of the dispatch in `lysp_type_str2builtin`. -/
def str2builtin_u (name : List Char) (len : Nat) : LY_DATA_TYPE :=
  if strncmpEq name 1 ['n'] then
    if len = 5 ∧ strncmpEq name 2 "ion".toList then LY_TYPE_UNION
    else LY_TYPE_UNKNOWN
  else if strncmpEq name 1 ['i'] ∧ strncmpEq name 2 ['n'] ∧ strncmpEq name 3 ['t'] then
    if len = 5 ∧ strncmpEq name 4 ['8'] then LY_TYPE_UINT8
    else if len = 6 then
      if strncmpEq name 4 "16".toList then LY_TYPE_UINT16
      else if strncmpEq name 4 "32".toList then LY_TYPE_UINT32
      else if strncmpEq name 4 "64".toList then LY_TYPE_UINT64
      else LY_TYPE_UNKNOWN
    else LY_TYPE_UNKNOWN
  else LY_TYPE_UNKNOWN

/-- Embedding of `lysp_type_str2builtin`: the length guard and the
first-character `switch` dispatch, whose arms are the `str2builtin_*`
functions above (translated branch for branch from the C). -/
def lysp_type_str2builtin (name : List Char) (len : Nat) : LY_DATA_TYPE :=
  if 4 ≤ len then
    if strncmpEq name 0 ['b'] then str2builtin_b name len
    else if strncmpEq name 0 ['d'] then str2builtin_d name len
    else if strncmpEq name 0 ['e'] then str2builtin_e name len
    else if strncmpEq name 0 ['i'] then str2builtin_i name len
    else if strncmpEq name 0 ['l'] then str2builtin_l name len
    else if strncmpEq name 0 ['s'] then str2builtin_s name len
    else if strncmpEq name 0 ['u'] then str2builtin_u name len
    else LY_TYPE_UNKNOWN
  else LY_TYPE_UNKNOWN

/-- The closed set of the 20 built-in YANG type names with their tags
(§3 of the spec). -/
def builtinTable : List (List Char × LY_DATA_TYPE) :=
  [("binary".toList, LY_TYPE_BINARY), ("bits".toList, LY_TYPE_BITS),
   ("boolean".toList, LY_TYPE_BOOL), ("decimal64".toList, LY_TYPE_DEC64),
   ("empty".toList, LY_TYPE_EMPTY), ("enumeration".toList, LY_TYPE_ENUM),
   ("int8".toList, LY_TYPE_INT8), ("int16".toList, LY_TYPE_INT16),
   ("int32".toList, LY_TYPE_INT32), ("int64".toList, LY_TYPE_INT64),
   ("instance-identifier".toList, LY_TYPE_INST),
   ("identityref".toList, LY_TYPE_IDENT), ("leafref".toList, LY_TYPE_LEAFREF),
   ("string".toList, LY_TYPE_STRING), ("union".toList, LY_TYPE_UNION),
   ("uint8".toList, LY_TYPE_UINT8), ("uint16".toList, LY_TYPE_UINT16),
   ("uint32".toList, LY_TYPE_UINT32), ("uint64".toList, LY_TYPE_UINT64)]

theorem strncmpEq_iff {s : List Char} {i : Nat} {pat : List Char} :
    strncmpEq s i pat = true ↔ (s.drop i).take pat.length = pat := by
  simp [strncmpEq]

theorem strncmp_glue {s : List Char} {i : Nat} {p q r : List Char}
    (h1 : strncmpEq s i p = true) (h2 : strncmpEq s (i + p.length) q = true)
    (h3 : p ++ q = r) : strncmpEq s i r = true := by
  subst h3
  rw [strncmpEq_iff] at h1 h2 ⊢
  rw [List.length_append, List.take_add, h1, List.drop_drop, h2]

theorem eq_of_strncmpEq_zero {s pat : List Char}
    (h : strncmpEq s 0 pat = true) (hl : s.length = pat.length) : s = pat := by
  rw [strncmpEq_iff, List.drop_zero, ← hl, List.take_length] at h
  exact h

/-- Completeness: each of the 20 built-in names is recognized with its tag. -/
theorem str2builtin_complete :
    ∀ p ∈ builtinTable, lysp_type_str2builtin p.1 p.1.length = p.2 := by
  intro p hp
  simp only [builtinTable, List.mem_cons, List.not_mem_nil, or_false] at hp
  rcases hp with rfl|rfl|rfl|rfl|rfl|rfl|rfl|rfl|rfl|rfl|rfl|rfl|rfl|rfl|rfl|rfl|rfl|rfl|rfl
  all_goals decide

theorem str2builtin_b_sound (name : List Char) (t : LY_DATA_TYPE)
    (hc : strncmpEq name 0 ['b'] = true)
    (ht : str2builtin_b name name.length = t) (hne : t ≠ LY_TYPE_UNKNOWN) :
    (name, t) ∈ builtinTable := by
  unfold str2builtin_b at ht
  by_cases h1 : strncmpEq name 1 ['i'] = true
  · rw [if_pos h1] at ht
    by_cases h2 : name.length = 6 ∧ strncmpEq name 2 "nary".toList = true
    · rw [if_pos h2] at ht
      subst ht
      have e : name = "binary".toList :=
        eq_of_strncmpEq_zero (strncmp_glue (strncmp_glue hc h1 rfl) h2.2 rfl)
          (h2.1.trans (by decide))
      subst e; decide
    · rw [if_neg h2] at ht
      by_cases h3 : name.length = 4 ∧ strncmpEq name 2 "ts".toList = true
      · rw [if_pos h3] at ht
        subst ht
        have e : name = "bits".toList :=
          eq_of_strncmpEq_zero (strncmp_glue (strncmp_glue hc h1 rfl) h3.2 rfl)
            (h3.1.trans (by decide))
        subst e; decide
      · rw [if_neg h3] at ht; subst ht; exact absurd rfl hne
  · rw [if_neg h1] at ht
    by_cases h4 : name.length = 7 ∧ strncmpEq name 1 "oolean".toList = true
    · rw [if_pos h4] at ht
      subst ht
      have e : name = "boolean".toList :=
        eq_of_strncmpEq_zero (strncmp_glue hc h4.2 rfl) (h4.1.trans (by decide))
      subst e; decide
    · rw [if_neg h4] at ht; subst ht; exact absurd rfl hne

theorem str2builtin_d_sound (name : List Char) (t : LY_DATA_TYPE)
    (hc : strncmpEq name 0 ['d'] = true)
    (ht : str2builtin_d name name.length = t) (hne : t ≠ LY_TYPE_UNKNOWN) :
    (name, t) ∈ builtinTable := by
  unfold str2builtin_d at ht
  by_cases h1 : name.length = 9 ∧ strncmpEq name 1 "ecimal64".toList = true
  · rw [if_pos h1] at ht
    subst ht
    have e : name = "decimal64".toList :=
      eq_of_strncmpEq_zero (strncmp_glue hc h1.2 rfl) (h1.1.trans (by decide))
    subst e; decide
  · rw [if_neg h1] at ht; subst ht; exact absurd rfl hne

theorem str2builtin_e_sound (name : List Char) (t : LY_DATA_TYPE)
    (hc : strncmpEq name 0 ['e'] = true)
    (ht : str2builtin_e name name.length = t) (hne : t ≠ LY_TYPE_UNKNOWN) :
    (name, t) ∈ builtinTable := by
  unfold str2builtin_e at ht
  by_cases h1 : name.length = 5 ∧ strncmpEq name 1 "mpty".toList = true
  · rw [if_pos h1] at ht
    subst ht
    have e : name = "empty".toList :=
      eq_of_strncmpEq_zero (strncmp_glue hc h1.2 rfl) (h1.1.trans (by decide))
    subst e; decide
  · rw [if_neg h1] at ht
    by_cases h2 : name.length = 11 ∧ strncmpEq name 1 "numeration".toList = true
    · rw [if_pos h2] at ht
      subst ht
      have e : name = "enumeration".toList :=
        eq_of_strncmpEq_zero (strncmp_glue hc h2.2 rfl) (h2.1.trans (by decide))
      subst e; decide
    · rw [if_neg h2] at ht; subst ht; exact absurd rfl hne

theorem str2builtin_i_sound (name : List Char) (t : LY_DATA_TYPE)
    (hc : strncmpEq name 0 ['i'] = true)
    (ht : str2builtin_i name name.length = t) (hne : t ≠ LY_TYPE_UNKNOWN) :
    (name, t) ∈ builtinTable := by
  unfold str2builtin_i at ht
  by_cases h1 : strncmpEq name 1 ['n'] = true
  · rw [if_pos h1] at ht
    by_cases h2 : name.length = 4 ∧ strncmpEq name 2 "t8".toList = true
    · rw [if_pos h2] at ht
      subst ht
      have e : name = "int8".toList :=
        eq_of_strncmpEq_zero (strncmp_glue (strncmp_glue hc h1 rfl) h2.2 rfl)
          (h2.1.trans (by decide))
      subst e; decide
    · rw [if_neg h2] at ht
      by_cases h3 : name.length = 5
      · rw [if_pos h3] at ht
        by_cases h4 : strncmpEq name 2 "t16".toList = true
        · rw [if_pos h4] at ht
          subst ht
          have e : name = "int16".toList :=
            eq_of_strncmpEq_zero (strncmp_glue (strncmp_glue hc h1 rfl) h4 rfl)
              (h3.trans (by decide))
          subst e; decide
        · rw [if_neg h4] at ht
          by_cases h5 : strncmpEq name 2 "t32".toList = true
          · rw [if_pos h5] at ht
            subst ht
            have e : name = "int32".toList :=
              eq_of_strncmpEq_zero (strncmp_glue (strncmp_glue hc h1 rfl) h5 rfl)
                (h3.trans (by decide))
            subst e; decide
          · rw [if_neg h5] at ht
            by_cases h6 : strncmpEq name 2 "t64".toList = true
            · rw [if_pos h6] at ht
              subst ht
              have e : name = "int64".toList :=
                eq_of_strncmpEq_zero (strncmp_glue (strncmp_glue hc h1 rfl) h6 rfl)
                  (h3.trans (by decide))
              subst e; decide
            · rw [if_neg h6] at ht; subst ht; exact absurd rfl hne
      · rw [if_neg h3] at ht
        by_cases h7 : name.length = 19 ∧ strncmpEq name 2 "stance-identifier".toList = true
        · rw [if_pos h7] at ht
          subst ht
          have e : name = "instance-identifier".toList :=
            eq_of_strncmpEq_zero (strncmp_glue (strncmp_glue hc h1 rfl) h7.2 rfl)
              (h7.1.trans (by decide))
          subst e; decide
        · rw [if_neg h7] at ht; subst ht; exact absurd rfl hne
  · rw [if_neg h1] at ht
    by_cases h8 : name.length = 11 ∧ strncmpEq name 1 "dentityref".toList = true
    · rw [if_pos h8] at ht
      subst ht
      have e : name = "identityref".toList :=
        eq_of_strncmpEq_zero (strncmp_glue hc h8.2 rfl) (h8.1.trans (by decide))
      subst e; decide
    · rw [if_neg h8] at ht; subst ht; exact absurd rfl hne

theorem str2builtin_l_sound (name : List Char) (t : LY_DATA_TYPE)
    (hc : strncmpEq name 0 ['l'] = true)
    (ht : str2builtin_l name name.length = t) (hne : t ≠ LY_TYPE_UNKNOWN) :
    (name, t) ∈ builtinTable := by
  unfold str2builtin_l at ht
  by_cases h1 : name.length = 7 ∧ strncmpEq name 1 "eafref".toList = true
  · rw [if_pos h1] at ht
    subst ht
    have e : name = "leafref".toList :=
      eq_of_strncmpEq_zero (strncmp_glue hc h1.2 rfl) (h1.1.trans (by decide))
    subst e; decide
  · rw [if_neg h1] at ht; subst ht; exact absurd rfl hne

theorem str2builtin_s_sound (name : List Char) (t : LY_DATA_TYPE)
    (hc : strncmpEq name 0 ['s'] = true)
    (ht : str2builtin_s name name.length = t) (hne : t ≠ LY_TYPE_UNKNOWN) :
    (name, t) ∈ builtinTable := by
  unfold str2builtin_s at ht
  by_cases h1 : name.length = 6 ∧ strncmpEq name 1 "tring".toList = true
  · rw [if_pos h1] at ht
    subst ht
    have e : name = "string".toList :=
      eq_of_strncmpEq_zero (strncmp_glue hc h1.2 rfl) (h1.1.trans (by decide))
    subst e; decide
  · rw [if_neg h1] at ht; subst ht; exact absurd rfl hne

theorem str2builtin_u_sound (name : List Char) (t : LY_DATA_TYPE)
    (hc : strncmpEq name 0 ['u'] = true)
    (ht : str2builtin_u name name.length = t) (hne : t ≠ LY_TYPE_UNKNOWN) :
    (name, t) ∈ builtinTable := by
  unfold str2builtin_u at ht
  by_cases h1 : strncmpEq name 1 ['n'] = true
  · rw [if_pos h1] at ht
    by_cases h2 : name.length = 5 ∧ strncmpEq name 2 "ion".toList = true
    · rw [if_pos h2] at ht
      subst ht
      have e : name = "union".toList :=
        eq_of_strncmpEq_zero (strncmp_glue (strncmp_glue hc h1 rfl) h2.2 rfl)
          (h2.1.trans (by decide))
      subst e; decide
    · rw [if_neg h2] at ht; subst ht; exact absurd rfl hne
  · rw [if_neg h1] at ht
    by_cases h3 : strncmpEq name 1 ['i'] = true ∧ strncmpEq name 2 ['n'] = true ∧
        strncmpEq name 3 ['t'] = true
    · rw [if_pos h3] at ht
      have huint : strncmpEq name 0 "uint".toList = true :=
        strncmp_glue (strncmp_glue (strncmp_glue hc h3.1 rfl) h3.2.1 rfl) h3.2.2 rfl
      by_cases h4 : name.length = 5 ∧ strncmpEq name 4 ['8'] = true
      · rw [if_pos h4] at ht
        subst ht
        have e : name = "uint8".toList :=
          eq_of_strncmpEq_zero (strncmp_glue huint h4.2 rfl) (h4.1.trans (by decide))
        subst e; decide
      · rw [if_neg h4] at ht
        by_cases h5 : name.length = 6
        · rw [if_pos h5] at ht
          by_cases h6 : strncmpEq name 4 "16".toList = true
          · rw [if_pos h6] at ht
            subst ht
            have e : name = "uint16".toList :=
              eq_of_strncmpEq_zero (strncmp_glue huint h6 rfl) (h5.trans (by decide))
            subst e; decide
          · rw [if_neg h6] at ht
            by_cases h7 : strncmpEq name 4 "32".toList = true
            · rw [if_pos h7] at ht
              subst ht
              have e : name = "uint32".toList :=
                eq_of_strncmpEq_zero (strncmp_glue huint h7 rfl) (h5.trans (by decide))
              subst e; decide
            · rw [if_neg h7] at ht
              by_cases h8 : strncmpEq name 4 "64".toList = true
              · rw [if_pos h8] at ht
                subst ht
                have e : name = "uint64".toList :=
                  eq_of_strncmpEq_zero (strncmp_glue huint h8 rfl) (h5.trans (by decide))
                subst e; decide
              · rw [if_neg h8] at ht; subst ht; exact absurd rfl hne
        · rw [if_neg h5] at ht; subst ht; exact absurd rfl hne
    · rw [if_neg h3] at ht; subst ht; exact absurd rfl hne

/-- Soundness: a non-`LY_TYPE_UNKNOWN` answer of `lysp_type_str2builtin`
only arises on one of the 20 built-in names, paired with its table tag. -/
theorem str2builtin_sound (name : List Char) (t : LY_DATA_TYPE)
    (ht : lysp_type_str2builtin name name.length = t) (hne : t ≠ LY_TYPE_UNKNOWN) :
    (name, t) ∈ builtinTable := by
  unfold lysp_type_str2builtin at ht
  by_cases h0 : 4 ≤ name.length
  · rw [if_pos h0] at ht
    by_cases hb : strncmpEq name 0 ['b'] = true
    · rw [if_pos hb] at ht; exact str2builtin_b_sound name t hb ht hne
    · rw [if_neg hb] at ht
      by_cases hd : strncmpEq name 0 ['d'] = true
      · rw [if_pos hd] at ht; exact str2builtin_d_sound name t hd ht hne
      · rw [if_neg hd] at ht
        by_cases he : strncmpEq name 0 ['e'] = true
        · rw [if_pos he] at ht; exact str2builtin_e_sound name t he ht hne
        · rw [if_neg he] at ht
          by_cases hi : strncmpEq name 0 ['i'] = true
          · rw [if_pos hi] at ht; exact str2builtin_i_sound name t hi ht hne
          · rw [if_neg hi] at ht
            by_cases hl : strncmpEq name 0 ['l'] = true
            · rw [if_pos hl] at ht; exact str2builtin_l_sound name t hl ht hne
            · rw [if_neg hl] at ht
              by_cases hs : strncmpEq name 0 ['s'] = true
              · rw [if_pos hs] at ht; exact str2builtin_s_sound name t hs ht hne
              · rw [if_neg hs] at ht
                by_cases hu : strncmpEq name 0 ['u'] = true
                · rw [if_pos hu] at ht; exact str2builtin_u_sound name t hu ht hne
                · rw [if_neg hu] at ht; subst ht; exact absurd rfl hne
  · rw [if_neg h0] at ht; subst ht; exact absurd rfl hne

/-! ## Parsed schema nodes and typedefs (`lysp_node_typedefs`, `lysp_type_match`, `lysp_type_find`) -/

/-- Modelled from the spec: the `LYS_*` nodetype bits of the absent
`tree_schema.h`; only their distinctness as bits matters here. -/
def LYS_CONTAINER : Nat := 0x1
def LYS_CHOICE : Nat := 0x2
def LYS_LEAF : Nat := 0x4
def LYS_LEAFLIST : Nat := 0x8
def LYS_LIST : Nat := 0x10
def LYS_ANYXML : Nat := 0x20
def LYS_ANYDATA : Nat := 0x40
def LYS_CASE : Nat := 0x80
def LYS_GROUPING : Nat := 0x100
def LYS_ACTION : Nat := 0x200
def LYS_NOTIF : Nat := 0x400
def LYS_INOUT : Nat := 0x800
def LYS_AUGMENT : Nat := 0x1000

/-- A parsed typedef (`struct lysp_tpdf`); only the name matters to the
helpers, the `id` field stands in for the identity of the C object. -/
structure Tpdf where
  name : List Char
  id : Nat
  deriving DecidableEq, Repr

/-- A parsed schema node (`struct lysp_node`), restricted to the fields the
helpers read: its nodetype, its typedef list and its parent pointer (a
`root` node has `parent == NULL`, a `child` node points at its parent). -/
inductive PNode where
  | root (nodetype : Nat) (typedefs : List Tpdf)
  | child (nodetype : Nat) (typedefs : List Tpdf) (parent : PNode)
  deriving DecidableEq, Repr

def PNode.nodetype : PNode → Nat
  | .root nt _ => nt
  | .child nt _ _ => nt

def PNode.typedefs : PNode → List Tpdf
  | .root _ tps => tps
  | .child _ tps _ => tps

def PNode.parent : PNode → Option PNode
  | .root _ _ => none
  | .child _ _ par => some par

/-- Embedding of `lysp_node_typedefs`: the nodetype switch returning the
node's typedef list for the six nodetypes that carry one, `NULL` (here
`[]`) otherwise. -/
def lysp_node_typedefs (node : PNode) : List Tpdf :=
  if node.nodetype = LYS_CONTAINER then node.typedefs
  else if node.nodetype = LYS_LIST then node.typedefs
  else if node.nodetype = LYS_GROUPING then node.typedefs
  else if node.nodetype = LYS_ACTION then node.typedefs
  else if node.nodetype = LYS_INOUT then node.typedefs
  else if node.nodetype = LYS_NOTIF then node.typedefs
  else []

/-- Embedding of `lysp_type_match`: first typedef of the node's list whose
name equals `name`. -/
def lysp_type_match (name : List Char) (node : PNode) : Option Tpdf :=
  (lysp_node_typedefs node).find? (fun t => t.name = name)

/-- A parsed module (`struct lysp_module`), restricted to what the type
resolver reads: identity, its own prefix, its import list (prefix to
module id), its top-level typedefs and its submodules' typedef lists. -/
structure PModule where
  id : Nat
  pfx : List Char
  imports : List (List Char × Nat)
  typedefs : List Tpdf
  includes : List (List Tpdf)
  deriving DecidableEq, Repr

/-- Embedding of `lysp_module_find_prefix` (the `FIND_MODULE` macro over
the parsed facet): the module's own prefix resolves to the module itself
(per spec §4.B; the C re-fetches it from the context by name/revision),
otherwise the import list is scanned.  `env` is the context registry,
mapping module ids to their parsed facets. -/
def lysp_module_find_prefix (env : Nat → Option PModule) (mod : PModule)
    (pfx : List Char) : Option PModule :=
  if mod.pfx = pfx then some mod
  else
    match mod.imports.find? (fun p => p.1 = pfx) with
    | some p => env p.2
    | none => none

/-- The out-parameters of `lysp_type_find` (`*type`, `*tpdf`, `*module`)
next to its `LY_ERR` result.  The `*node` out-parameter (the lexical node
where a scoped typedef was found) is not modelled. -/
structure TypeFindResult where
  err : LY_ERR
  type : LY_DATA_TYPE
  tpdf : Option Tpdf
  mod : Option Nat
  deriving DecidableEq, Repr

/-- The `while (*node)` walk of `lysp_type_find`: try `lysp_type_match` on
the node, else continue at the parent. -/
def typeFindChain (name : List Char) : PNode → Option Tpdf
  | .root nt tps =>
    lysp_type_match name (.root nt tps)
  | .child nt tps par =>
    match lysp_type_match name (.child nt tps par) with
    | some t => some t
    | none => typeFindChain name par

/-- The search phase of `lysp_type_find` after prefix resolution and the
built-in check: the parent chain (only when a starting node was supplied
and the search module is the starting module), then the module's top-level
typedefs, then each included submodule's typedefs. -/
def lysp_type_find_search (name : List Char) (start_node : Option PNode)
    (start_module m : PModule) (ty : LY_DATA_TYPE) : TypeFindResult :=
  let chainRes : Option Tpdf :=
    match start_node with
    | some sn => if m = start_module then typeFindChain name sn else none
    | none => none
  match chainRes with
  | some t => ⟨LY_SUCCESS, ty, some t, some m.id⟩
  | none =>
    match m.typedefs.find? (fun t => t.name = name) with
    | some t => ⟨LY_SUCCESS, ty, some t, some m.id⟩
    | none =>
      match m.includes.findSome? (fun tl => tl.find? (fun t => t.name = name)) with
      | some t => ⟨LY_SUCCESS, ty, some t, some m.id⟩
      | none => ⟨LY_ENOTFOUND, ty, none, some m.id⟩

/-- Embedding of `lysp_type_find`: split `id` at the first `':'`; a
prefixed name resolves its prefix (a miss is `LY_ENOTFOUND`) and skips the
built-in check; an unprefixed name is first tested against the built-ins;
then `lysp_type_find_search` runs. -/
def lysp_type_find (env : Nat → Option PModule) (id : List Char)
    (start_node : Option PNode) (start_module : PModule) : TypeFindResult :=
  let pre := id.takeWhile (fun c => c ≠ ':')
  if pre.length < id.length then
    let name := id.drop (pre.length + 1)
    match lysp_module_find_prefix env start_module pre with
    | none => ⟨LY_ENOTFOUND, LY_TYPE_UNKNOWN, none, none⟩
    | some m => lysp_type_find_search name start_node start_module m LY_TYPE_UNKNOWN
  else
    let ty := lysp_type_str2builtin id id.length
    if ty ≠ LY_TYPE_UNKNOWN then ⟨LY_SUCCESS, ty, none, some start_module.id⟩
    else lysp_type_find_search id start_node start_module start_module LY_TYPE_UNKNOWN

/-- The typedefs visible on the lexical parent chain of a node, nearest
scope first (spec §4.C's "walk from the starting node upward through its
parent chain"). -/
def chainTpdfs : PNode → List Tpdf
  | .root nt tps => lysp_node_typedefs (.root nt tps)
  | .child nt tps par => lysp_node_typedefs (.child nt tps par) ++ chainTpdfs par

/-- The resolution order stated by spec §4.C, written from its words: an
unprefixed name is first tested against the closed table of 20 built-ins;
then one ordered candidate list — parent chain (only when the search
module equals the starting module and a starting node was supplied), the
search module's top-level typedefs, each submodule's typedefs — is
searched with first match winning; a miss is *not-found*. -/
def lysp_type_find_spec (env : Nat → Option PModule) (id : List Char)
    (start_node : Option PNode) (start_module : PModule) : TypeFindResult :=
  let pre := id.takeWhile (fun c => c ≠ ':')
  let prefixed := pre.length < id.length
  let name := if prefixed then id.drop (pre.length + 1) else id
  let builtinHit : Option LY_DATA_TYPE :=
    if prefixed then none
    else (builtinTable.find? (fun p => p.1 = name)).map Prod.snd
  match builtinHit with
  | some ty => ⟨LY_SUCCESS, ty, none, some start_module.id⟩
  | none =>
    let modRes := if prefixed then lysp_module_find_prefix env start_module pre
                  else some start_module
    match modRes with
    | none => ⟨LY_ENOTFOUND, LY_TYPE_UNKNOWN, none, none⟩
    | some m =>
      let candidates :=
        (if m = start_module then
           (match start_node with
            | some sn => chainTpdfs sn
            | none => [])
         else []) ++ m.typedefs ++ m.includes.flatten
      match candidates.find? (fun t => t.name = name) with
      | some t => ⟨LY_SUCCESS, LY_TYPE_UNKNOWN, some t, some m.id⟩
      | none => ⟨LY_ENOTFOUND, LY_TYPE_UNKNOWN, none, some m.id⟩

theorem typeFindChain_eq (name : List Char) (n : PNode) :
    typeFindChain name n = (chainTpdfs n).find? (fun t => t.name = name) := by
  induction n with
  | root nt tps =>
    rw [typeFindChain, chainTpdfs]
    rfl
  | child nt tps par ih =>
    rw [typeFindChain, chainTpdfs, List.find?_append]
    cases hm : lysp_type_match name (.child nt tps par) with
    | some t => rw [lysp_type_match] at hm; rw [hm]; rfl
    | none =>
      rw [lysp_type_match] at hm; rw [hm]
      simpa using ih


theorem table_tags_ne_unknown : ∀ p ∈ builtinTable, p.2 ≠ LY_TYPE_UNKNOWN := by
  decide

theorem table_find_of_mem {name : List Char} {t : LY_DATA_TYPE}
    (h : (name, t) ∈ builtinTable) :
    builtinTable.find? (fun p => p.1 = name) = some (name, t) := by
  simp only [builtinTable, List.mem_cons, List.not_mem_nil, or_false] at h
  rcases h with h|h|h|h|h|h|h|h|h|h|h|h|h|h|h|h|h|h|h <;>
    (rw [Prod.mk.injEq] at h; obtain ⟨rfl, rfl⟩ := h; decide)

/-- The hand-rolled first-character dispatch agrees with a lookup in the
table of the 20 built-in names on every string. -/
theorem str2builtin_eq_table (name : List Char) :
    lysp_type_str2builtin name name.length =
      ((builtinTable.find? (fun p => p.1 = name)).map Prod.snd).getD LY_TYPE_UNKNOWN := by
  by_cases hne : lysp_type_str2builtin name name.length = LY_TYPE_UNKNOWN
  · rw [hne]
    cases hf : builtinTable.find? (fun p => p.1 = name) with
    | none => rfl
    | some p =>
      have hmem := List.mem_of_find?_eq_some hf
      have hp : p.1 = name := by simpa using List.find?_some hf
      have := str2builtin_complete p hmem
      rw [hp] at this
      exact absurd (this.symm.trans hne) (table_tags_ne_unknown p hmem)
  · have hmem := str2builtin_sound name _ rfl hne
    rw [table_find_of_mem hmem]
    rfl

theorem lysp_type_find_search_eq (name : List Char) (sn : Option PNode)
    (sm m : PModule) :
    lysp_type_find_search name sn sm m LY_TYPE_UNKNOWN =
      (match ((if m = sm then
                 (match sn with
                  | some n => chainTpdfs n
                  | none => []) else []) ++
              m.typedefs ++ m.includes.flatten).find? (fun t => t.name = name) with
       | some t => ⟨LY_SUCCESS, LY_TYPE_UNKNOWN, some t, some m.id⟩
       | none => ⟨LY_ENOTFOUND, LY_TYPE_UNKNOWN, none, some m.id⟩) := by
  rw [List.find?_append, List.find?_append, List.find?_flatten]
  have hchain :
      (if m = sm then
          (match sn with
           | some n => chainTpdfs n
           | none => []) else []).find? (fun t => t.name = name)
        = (match sn with
           | some n => if m = sm then typeFindChain name n else none
           | none => none) := by
    by_cases h : m = sm
    · cases sn with
      | none => simp [h]
      | some n => simp [h, typeFindChain_eq]
    · cases sn with
      | none => simp [h]
      | some n => simp [h]
  rw [hchain]
  unfold lysp_type_find_search
  cases hx1 : (match sn with
               | some n => if m = sm then typeFindChain name n else none
               | none => none) with
  | some t => rfl
  | none =>
    cases hx2 : m.typedefs.find? (fun t => t.name = name) with
    | some t => rfl
    | none =>
      cases hx3 : m.includes.findSome? (fun tl => tl.find? (fun t => t.name = name)) with
      | some t => rfl
      | none => rfl

/-- C6: the type resolver is, observably, the spec's ordered search:
unprefixed built-in names hit immediately (via the 20-name table) with no
typedef; prefixed names skip the built-in check; otherwise the parent
chain (only for `m = start_module` with a node), the module's top-level
typedefs and the submodules' typedefs are searched, first match winning,
and a miss is `LY_ENOTFOUND`. -/
theorem lysp_type_find_eq_spec (env : Nat → Option PModule) (id : List Char)
    (sn : Option PNode) (sm : PModule) :
    lysp_type_find env id sn sm = lysp_type_find_spec env id sn sm := by
  unfold lysp_type_find lysp_type_find_spec
  by_cases hpre : (id.takeWhile (fun c => c ≠ ':')).length < id.length
  · simp only [hpre, if_true, if_pos hpre]
    cases hm : lysp_module_find_prefix env sm (id.takeWhile (fun c => c ≠ ':')) with
    | none => rfl
    | some m => exact lysp_type_find_search_eq _ sn sm m
  · simp only [hpre, if_false, if_neg hpre]
    rw [str2builtin_eq_table]
    cases hf : builtinTable.find? (fun p => p.1 = id) with
    | some p =>
      have hne := table_tags_ne_unknown p (List.mem_of_find?_eq_some hf)
      simp [hne]
    | none =>
      simpa using lysp_type_find_search_eq id sn sm sm

/-! ## Status checking (`lysc_check_status`) -/

/-- Modelled from the spec: the `LYS_STATUS_*` flag bits of the absent
`tree_schema.h`.  Their numeric order realizes the spec's
current < deprecated < obsolete ordering, and the mask is their union. -/
def LYS_STATUS_CURR : Nat := 0x4
def LYS_STATUS_DEPRC : Nat := 0x8
def LYS_STATUS_OBSLT : Nat := 0x10
def LYS_STATUS_MASK : Nat := 0x1C

/-- Embedding of `lysc_check_status`: default both flag sets to *current*
when no status bit is set, then fail exactly when the masked values
satisfy `flg1 < flg2` within one module.  The `name1`/`name2` arguments
only feed the diagnostic message in the C. -/
def lysc_check_status (flags1 : Nat) (mod1 : Nat) (name1 : List Char)
    (flags2 : Nat) (mod2 : Nat) (name2 : List Char) : LY_ERR :=
  let flg1 := if flags1 &&& LYS_STATUS_MASK ≠ 0 then flags1 &&& LYS_STATUS_MASK
              else LYS_STATUS_CURR
  let flg2 := if flags2 &&& LYS_STATUS_MASK ≠ 0 then flags2 &&& LYS_STATUS_MASK
              else LYS_STATUS_CURR
  if flg1 < flg2 ∧ mod1 = mod2 then LY_EVALID else LY_SUCCESS

/-- The abstract status lifecycle of the spec, with its ordering
current < deprecated < obsolete. -/
inductive StatusKind where
  | current
  | deprecated
  | obsolete
  deriving DecidableEq, Repr

def statusRank : StatusKind → Nat
  | .current => 0
  | .deprecated => 1
  | .obsolete => 2

/-- The status a flags word denotes, defaulting to *current* when no
status bit is set. -/
def statusOf (flags : Nat) : StatusKind :=
  if flags &&& LYS_STATUS_MASK = LYS_STATUS_OBSLT then .obsolete
  else if flags &&& LYS_STATUS_MASK = LYS_STATUS_DEPRC then .deprecated
  else .current

/-- A flags word is well-formed when it carries at most one status bit. -/
def wfStatusFlags (flags : Nat) : Prop :=
  flags &&& LYS_STATUS_MASK = 0 ∨ flags &&& LYS_STATUS_MASK = LYS_STATUS_CURR ∨
  flags &&& LYS_STATUS_MASK = LYS_STATUS_DEPRC ∨ flags &&& LYS_STATUS_MASK = LYS_STATUS_OBSLT

instance (flags : Nat) : Decidable (wfStatusFlags flags) := by
  unfold wfStatusFlags
  exact inferInstance

/-! ## Revision sorting (`lysp_sort_revisions`) -/

/-- The max-scan loop of `lysp_sort_revisions`: starting from index `i`
with current maximum at `r`, move `r` to any strictly larger date
(`strcmp(revs[i].date, revs[r].date) > 0`). -/
def sortRevLoop (revs : List String) (i r : Nat) : Nat :=
  if i < revs.length then
    sortRevLoop revs (i + 1) (if revs.getD r "" < revs.getD i "" then i else r)
  else r
termination_by revs.length - i

/-- Embedding of `lysp_sort_revisions`: one pass finds the index of the
newest date, then a single swap moves it to index 0 (only when it is not
already there). -/
def lysp_sort_revisions (revs : List String) : List String :=
  let r := sortRevLoop revs 1 0
  if r ≠ 0 then
    (revs.set 0 (revs.getD r "")).set r (revs.getD 0 "")
  else revs

theorem sortRevLoop_spec (revs : List String) (i r : Nat) (hr : r < revs.length) :
    sortRevLoop revs i r < revs.length ∧
      revs.getD r "" ≤ revs.getD (sortRevLoop revs i r) "" ∧
      (∀ j, i ≤ j → j < revs.length → revs.getD j "" ≤ revs.getD (sortRevLoop revs i r) "") ∧
      (sortRevLoop revs i r = r ∨ i ≤ sortRevLoop revs i r) := by
  rw [sortRevLoop]
  by_cases h : i < revs.length
  · rw [if_pos h]
    set r2 := if revs.getD r "" < revs.getD i "" then i else r with hr2
    have hr2lt : r2 < revs.length := by
      rw [hr2]; split
      · exact h
      · exact hr
    obtain ⟨ih1, ih2, ih3, ih4⟩ := sortRevLoop_spec revs (i + 1) r2 hr2lt
    have hri : revs.getD r "" ≤ revs.getD r2 "" := by
      rw [hr2]; split
      · exact le_of_lt (by assumption)
      · exact le_refl _
    have hii : revs.getD i "" ≤ revs.getD r2 "" := by
      rw [hr2]; split
      · exact le_refl _
      · exact le_of_not_lt (by assumption)
    refine ⟨ih1, le_trans hri ih2, ?_, ?_⟩
    · intro j hij hjl
      rcases Nat.eq_or_lt_of_le hij with rfl | hlt
      · exact le_trans hii ih2
      · exact ih3 j hlt hjl
    · rcases ih4 with he | hle
      · rw [he, hr2]
        split
        · right; exact le_refl _
        · left; rfl
      · right; omega
  · rw [if_neg h]
    refine ⟨hr, le_refl _, ?_, Or.inl rfl⟩
    intro j hij hjl
    omega
termination_by revs.length - i

theorem cons_set_perm : ∀ (t : List String) (k : Nat) (a : String), k < t.length →
    (t.getD k "" :: t.set k a).Perm (a :: t)
  | b :: u, 0, a, _ => by
    simpa using List.Perm.swap a b u
  | b :: u, k + 1, a, h => by
    have ih := cons_set_perm u k a (by simpa using h)
    have h1 : (u.getD k "" :: b :: u.set k a).Perm (b :: u.getD k "" :: u.set k a) :=
      List.Perm.swap b (u.getD k "") (u.set k a)
    have h2 : (b :: u.getD k "" :: u.set k a).Perm (b :: a :: u) := ih.cons b
    have h3 : (b :: a :: u).Perm (a :: b :: u) := List.Perm.swap a b u
    simpa using (h1.trans h2).trans h3

theorem set_swap_perm (l : List String) (k : Nat) (hk : 0 < k) (hl : k < l.length) :
    ((l.set 0 (l.getD k "")).set k (l.getD 0 "")).Perm l := by
  cases l with
  | nil => simp at hl
  | cons a t =>
    cases k with
    | zero => omega
    | succ k =>
      have hkt : k < t.length := by simpa using hl
      have : ((a :: t).set 0 ((a :: t).getD (k + 1) "")).set (k + 1) ((a :: t).getD 0 "")
          = t.getD k "" :: t.set k a := by
        simp [List.set]
      rw [this]
      exact cons_set_perm t k a hkt

/-! ## Typedef collision checking (`lysp_check_typedef`) -/

/-- Modelled from the spec: the hash tables of §4.D hold sets of names;
`lyht_find` is truthy exactly when the name is present (§4.D step 2
\"verify the name is already in `globals`\"; `hash_table.c` is absent from
the sources). -/
def lyht_find (ht : List (List Char)) (name : List Char) : Bool :=
  ht.contains name

/-- Modelled from the spec: `lyht_insert` adds the name to the set and is
truthy exactly on a duplicate insertion (§4.D step 1 \"a duplicate
insertion is *collision-top-level*\").  Returns the flag next to the
updated table. -/
def lyht_insert (ht : List (List Char)) (name : List Char) : Bool × List (List Char) :=
  if ht.contains name then (true, ht) else (false, name :: ht)

/-- The `for (parent = node->parent; parent; parent = node->parent)`
ancestor walk of `lysp_check_typedef`.  The update clause re-reads
`node->parent`, so the loop state never changes: it terminates without a
collision only when `node->parent` is `NULL`, reports a collision
(`some true`) when the immediate parent's typedef list matches, and
otherwise never terminates (denoted `none`). -/
def typedefAncestorScan (node : PNode) (name : List Char) : Option Bool :=
  match node.parent with
  | none => some false
  | some p => if (lysp_type_match name p).isSome then some true else none

/-- Embedding of `lysp_check_typedef`.  Order of checks as in the C:
built-in collision, then (for scoped typedefs) the sibling scan up to the
typedef itself and the ancestor walk, then the hash-table phase — scoped:
insert into `tpdfs_scoped`, collision when `lyht_find` on `tpdfs_global`
is falsy; top-level: collision when `lyht_insert` into `tpdfs_global` is
truthy.  `none` denotes non-termination of the ancestor walk. -/
def lysp_check_typedef (node : Option PNode) (tpdf : Tpdf)
    (tpdfs_global tpdfs_scoped : List (List Char)) :
    Option (LY_ERR × List (List Char) × List (List Char)) :=
  let name := tpdf.name
  if lysp_type_str2builtin name name.length ≠ LY_TYPE_UNKNOWN then
    some (LY_EEXIST, tpdfs_global, tpdfs_scoped)
  else
    match node with
    | some nd =>
      let siblings := (lysp_node_typedefs nd).takeWhile (fun t => t ≠ tpdf)
      if (siblings.find? (fun t => t.name = name)).isSome then
        some (LY_EEXIST, tpdfs_global, tpdfs_scoped)
      else
        match typedefAncestorScan nd name with
        | some true => some (LY_EEXIST, tpdfs_global, tpdfs_scoped)
        | none => none
        | some false =>
          let scoped2 := (lyht_insert tpdfs_scoped name).2
          if ¬ lyht_find tpdfs_global name then
            some (LY_EEXIST, tpdfs_global, scoped2)
          else
            some (LY_SUCCESS, tpdfs_global, scoped2)
    | none =>
      let ins := lyht_insert tpdfs_global name
      if ins.1 then
        some (LY_EEXIST, ins.2, tpdfs_scoped)
      else
        some (LY_SUCCESS, ins.2, tpdfs_scoped)

theorem getD_eq_getElem_of_lt (l : List String) (i : Nat) (h : i < l.length) :
    l.getD i "" = l[i] := by
  rw [List.getD_eq_getElem?_getD, List.getElem?_eq_getElem h, Option.getD_some]

/-- C9: for a non-empty revision array, after `lysp_sort_revisions` the
entry at index 0 is the lexicographically largest date of the array (and
itself one of the dates), the result is a permutation of the input, and
the rearrangement is at most the single swap of index 0 with the
maximum's original position. -/
theorem lysp_sort_revisions_correct (revs : List String) (hne : revs ≠ []) :
    (∀ rev ∈ revs, rev ≤ (lysp_sort_revisions revs).getD 0 "") ∧
      (lysp_sort_revisions revs).getD 0 "" ∈ revs ∧
      (lysp_sort_revisions revs).Perm revs ∧
      (lysp_sort_revisions revs = revs ∨
        ∃ k, 0 < k ∧ k < revs.length ∧
          lysp_sort_revisions revs = (revs.set 0 (revs.getD k "")).set k (revs.getD 0 "")) := by
  have h0 : 0 < revs.length := List.length_pos.mpr hne
  obtain ⟨hlt, hle, hmax, -⟩ := sortRevLoop_spec revs 1 0 h0
  set r := sortRevLoop revs 1 0 with hrdef
  have hallmax : ∀ j, j < revs.length → revs.getD j "" ≤ revs.getD r "" := by
    intro j hj
    cases Nat.eq_zero_or_pos j with
    | inl hz => rw [hz]; exact hle
    | inr hp => exact hmax j hp hj
  have hmem_max : revs.getD r "" ∈ revs := by
    rw [getD_eq_getElem_of_lt revs r hlt]
    exact List.getElem_mem hlt
  have hmax_mem : ∀ rev ∈ revs, rev ≤ revs.getD r "" := by
    intro rev hrev
    obtain ⟨j, hj, rfl⟩ := List.mem_iff_getElem.mp hrev
    rw [← getD_eq_getElem_of_lt revs j hj]
    exact hallmax j hj
  unfold lysp_sort_revisions
  rw [← hrdef]
  by_cases hr0 : r = 0
  · rw [if_neg (by simpa using hr0)]
    rw [hr0] at hmax_mem hmem_max
    exact ⟨hmax_mem, hmem_max, List.Perm.refl revs, Or.inl rfl⟩
  · rw [if_pos hr0]
    have hgd0 : ((revs.set 0 (revs.getD r "")).set r (revs.getD 0 "")).getD 0 ""
        = revs.getD r "" := by
      have hlen : 0 < ((revs.set 0 (revs.getD r "")).set r (revs.getD 0 "")).length := by
        simpa using h0
      rw [getD_eq_getElem_of_lt _ 0 hlen]
      rw [List.getElem_set_ne (by omega) (by simpa using h0)]
      exact List.getElem_set_self (by simpa using h0)
    rw [hgd0]
    refine ⟨hmax_mem, hmem_max, set_swap_perm revs r (Nat.pos_of_ne_zero hr0) hlt, ?_⟩
    exact Or.inr ⟨r, Nat.pos_of_ne_zero hr0, hlt, rfl⟩

/-- C2: `lysc_check_status` succeeds across modules; within one module it
fails (the spec's *denied* kind, `LY_EVALID` in the C) exactly when the
referrer's status — defaulting to current — is strictly more current than
the referent's under current < deprecated < obsolete. -/
theorem lysc_check_status_correct (flags1 flags2 mod1 mod2 : Nat)
    (name1 name2 : List Char)
    (h1 : wfStatusFlags flags1) (h2 : wfStatusFlags flags2) :
    (mod1 ≠ mod2 → lysc_check_status flags1 mod1 name1 flags2 mod2 name2 = LY_SUCCESS) ∧
    (mod1 = mod2 →
      (lysc_check_status flags1 mod1 name1 flags2 mod2 name2 = LY_EVALID ↔
        statusRank (statusOf flags1) < statusRank (statusOf flags2)) ∧
      (lysc_check_status flags1 mod1 name1 flags2 mod2 name2 = LY_SUCCESS ↔
        ¬ statusRank (statusOf flags1) < statusRank (statusOf flags2))) := by
  unfold lysc_check_status statusOf
  rcases h1 with h1|h1|h1|h1 <;> rcases h2 with h2|h2|h2|h2 <;> rw [h1, h2] <;>
    refine ⟨fun hm => ?_, fun hm => ?_⟩ <;>
    simp [hm, LYS_STATUS_CURR, LYS_STATUS_DEPRC, LYS_STATUS_OBSLT, statusRank]

/-- C1: for a scoped typedef that passed the built-in, sibling and ancestor
checks, the checker inserts the name into the scoped table and raises a
collision exactly when `lyht_find` on the globals table is falsy, i.e.
when the name is not present among the top-level typedef names; when the
name is present there, the check succeeds. -/
theorem lysp_check_typedef_scoped (nd : PNode) (tpdf : Tpdf)
    (g s : List (List Char))
    (hb : lysp_type_str2builtin tpdf.name tpdf.name.length = LY_TYPE_UNKNOWN)
    (hs : ((lysp_node_typedefs nd).takeWhile (fun t => t ≠ tpdf)).find?
            (fun t => t.name = tpdf.name) = none)
    (ha : typedefAncestorScan nd tpdf.name = some false) :
    lysp_check_typedef (some nd) tpdf g s =
      some ((if lyht_find g tpdf.name then LY_SUCCESS else LY_EEXIST), g,
            (lyht_insert s tpdf.name).2) ∧
    (lyht_find g tpdf.name = true ↔ tpdf.name ∈ g) := by
  constructor
  · rw [List.find?_eq_none] at hs
    by_cases hf : lyht_find g tpdf.name <;>
      simp_all [lysp_check_typedef, hb, ha, hf]
  · simp [lyht_find, List.elem_eq_mem]

theorem check_date_iff (date : List Char) :
    lysp_check_date date date.length = LY_SUCCESS ↔ validRevisionDate date := by
  unfold lysp_check_date validRevisionDate
  by_cases h1 : date.length = 10
  · rw [if_neg (by simp [h1])]
    by_cases h2 : dateFormatOk date = true
    · rw [if_neg (by simp [h2])]
      obtain ⟨f4, f7, fd⟩ := (dateFormatOk_iff date).mp h2
      by_cases h3 : gregorianOk date
      · rw [if_pos h3]
        exact iff_of_true rfl ⟨h1, f4, f7, fd, h3⟩
      · rw [if_neg h3]
        exact iff_of_false (by simp) (fun hv => h3 hv.2.2.2.2)
    · rw [if_pos (by simpa using h2)]
      exact iff_of_false (by simp)
        (fun hv => h2 ((dateFormatOk_iff date).mpr ⟨hv.2.1, hv.2.2.1, hv.2.2.2.1⟩))
  · rw [if_pos (by simpa using h1)]
    exact iff_of_false (by simp) (fun hv => h1 hv.1)

/-- C7: `lysp_check_date` accepts exactly the 10-byte `YYYY-MM-DD` strings
denoting a real Gregorian date in canonical form (range 0000..9999 forced
by the four-digit year); in particular 2018-02-29, 2018-13-01 and the
9-byte 2018-2-28 are rejected with `LY_EINVAL` while 2018-02-28 is
accepted. -/
theorem lysp_check_date_correct :
    (∀ date : List Char, lysp_check_date date date.length = LY_SUCCESS ↔ validRevisionDate date) ∧
    lysp_check_date "2018-02-29".toList 10 = LY_EINVAL ∧
    lysp_check_date "2018-13-01".toList 10 = LY_EINVAL ∧
    lysp_check_date "2018-2-28".toList 9 = LY_EINVAL ∧
    lysp_check_date "2018-02-28".toList 10 = LY_SUCCESS :=
  ⟨check_date_iff, by decide, by decide, by decide, by decide⟩

theorem lysp_check_typedef_scoped_witness :
    (lysp_check_typedef (some (PNode.root LYS_CONTAINER [Tpdf.mk "t1".toList 0]))
        (Tpdf.mk "t1".toList 0) ["t1".toList] [] =
      some ((if lyht_find ["t1".toList] "t1".toList then LY_SUCCESS else LY_EEXIST),
            ["t1".toList], (lyht_insert [] "t1".toList).2)) ∧
    (lyht_find ["t1".toList] "t1".toList = true ↔ "t1".toList ∈ ["t1".toList]) :=
  lysp_check_typedef_scoped (PNode.root LYS_CONTAINER [Tpdf.mk "t1".toList 0])
    (Tpdf.mk "t1".toList 0) ["t1".toList] [] (by decide) (by decide) (by decide)

theorem lysc_check_status_witness :
    lysc_check_status LYS_STATUS_CURR 0 "x".toList LYS_STATUS_OBSLT 0 "T".toList = LY_EVALID := by
  have h := lysc_check_status_correct LYS_STATUS_CURR LYS_STATUS_OBSLT 0 0
    "x".toList "T".toList (by decide) (by decide)
  exact ((h.2 rfl).1).mpr (by decide)

theorem lysp_sort_revisions_witness :
    (lysp_sort_revisions ["2019-01-01", "2020-06-06"]).getD 0 "" ∈
      (["2019-01-01", "2020-06-06"] : List String) ∧
    (lysp_sort_revisions ["2019-01-01", "2020-06-06"]).Perm ["2019-01-01", "2020-06-06"] ∧
    "2019-01-01" ≤ (lysp_sort_revisions ["2019-01-01", "2020-06-06"]).getD 0 "" := by
  have h := lysp_sort_revisions_correct ["2019-01-01", "2020-06-06"] (by decide)
  exact ⟨h.2.1, h.2.2.1, h.1 "2019-01-01" (by decide)⟩

/-! ## Module loading (`lysp_load_module`) -/

/-- A module of the context registry (`struct lys_module`), restricted to
what `lysp_load_module` reads: name, revision (the newest, `revs[0]`), the
`implemented` flag, the parsed facet's `parsing` flag (`none` when the
parsed facet is absent), and `latest_revision`. -/
structure LysModule where
  name : String
  revision : Option String
  implemented : Bool
  parsed_parsing : Option Bool
  latest_revision : Nat
  deriving DecidableEq, Repr

/-- Modelled from the spec: `ly_ctx_get_module` — the registry lookup by
name and exact revision (`context.c` is absent from the sources). -/
def ly_ctx_get_module (ctx : List LysModule) (name : String) (revision : String) :
    Option LysModule :=
  ctx.find? (fun m => decide (m.name = name ∧ m.revision = some revision))

/-- Modelled from the spec: `ly_ctx_get_module_latest` — any revision of
the name, preferring the one marked `latest_revision = 2` (§4.G step 1). -/
def ly_ctx_get_module_latest (ctx : List LysModule) (name : String) :
    Option LysModule :=
  match ctx.find? (fun m => decide (m.name = name ∧ m.latest_revision = 2)) with
  | some m => some m
  | none => ctx.find? (fun m => decide (m.name = name))

/-- Modelled from the spec: `ly_ctx_get_module_implemented` — the
implemented revision of the name (at most one per context, invariant 7). -/
def ly_ctx_get_module_implemented (ctx : List LysModule) (name : String) :
    Option LysModule :=
  ctx.find? (fun m => decide (m.name = name ∧ m.implemented = true))

/-- The three diagnostic sites of `lysp_load_module`, one per `LOGVAL` /
`LOGVAL`-like message: the implemented-revision collision, the circular
import, and the final "Loading/Importing ... module failed". -/
inductive LoadDiag where
  | implementedCollision
  | circularImport
  | loadFailed
  deriving DecidableEq, Repr

/-- The common tail of `lysp_load_module`: fail with `LY_EVALID` when no
module was obtained, otherwise mark it implemented when requested and
return it. -/
def loadModuleFinish (implement : Bool) (mod : Option LysModule) :
    LY_ERR × Option LysModule × Option LoadDiag :=
  match mod with
  | none => (LY_EVALID, none, some .loadFailed)
  | some m => (LY_SUCCESS, some (if implement then {m with implemented := true} else m), none)

/-- The not-in-context branch of `lysp_load_module`: the
implemented-revision collision check, then the acquisition pipeline
(abstracted by the `acquire` oracle — the module value the callback /
searchdir / compile-on-implement block leaves in `*mod`, `none` when it
leaves nothing), then the `latest_revision` 1-to-2 promotion. -/
def loadModuleAcquire (ctx : List LysModule) (name : String) (revision : Option String)
    (implement : Bool) (acquire : Option LysModule) :
    LY_ERR × Option LysModule × Option LoadDiag :=
  if implement ∧ (ly_ctx_get_module_implemented ctx name).isSome then
    (LY_EDENIED, none, some .implementedCollision)
  else
    let m1 : Option LysModule :=
      match acquire with
      | some m =>
        some (if revision = none ∧ m.latest_revision = 1 then
                {m with latest_revision := 2} else m)
      | none => none
    loadModuleFinish implement m1

/-- Embedding of `lysp_load_module`.  `modIn` is the incoming `*mod`; the
registry lookups and the acquisition I/O are the spec-modelled pieces
above.  Returns `(LY_ERR, *mod, diagnostic)`. -/
def lysp_load_module (ctx : List LysModule) (name : String) (revision : Option String)
    (implement require_parsed : Bool) (modIn : Option LysModule)
    (acquire : Option LysModule) : LY_ERR × Option LysModule × Option LoadDiag :=
  let mod0 : Option LysModule :=
    match modIn with
    | some m => some m
    | none =>
      match revision with
      | some r => ly_ctx_get_module ctx name r
      | none => ly_ctx_get_module_latest ctx name
  match mod0 with
  | none => loadModuleAcquire ctx name revision implement acquire
  | some m =>
    if require_parsed ∧ m.parsed_parsing = none then
      loadModuleAcquire ctx name revision implement acquire
    else if implement && (match ly_ctx_get_module_implemented ctx name with
                          | some mi => mi != m
                          | none => false) then
      (LY_EDENIED, none, some .implementedCollision)
    else if m.parsed_parsing = some true then
      (LY_EVALID, none, some .circularImport)
    else
      loadModuleFinish implement (some m)

/-- C3: with `implement` set and another implemented revision of the same
name in the context, `lysp_load_module` fails with `LY_EDENIED` (the
spec's *denied*) and a null `*mod` — both when the requested revision is
absent from the registry (the module must be newly acquired) and when a
module was found in the registry. -/
theorem lysp_load_module_implemented_collision
    (ctx : List LysModule) (name : String) (r : String)
    (require_parsed : Bool) (acquire : Option LysModule) (mi : LysModule) :
    (ly_ctx_get_module ctx name r = none →
      ly_ctx_get_module_implemented ctx name = some mi →
      mi.revision ≠ some r →
      lysp_load_module ctx name (some r) true require_parsed none acquire =
        (LY_EDENIED, none, some .implementedCollision)) ∧
    (∀ m : LysModule, ly_ctx_get_module ctx name r = some m →
      ¬ (require_parsed ∧ m.parsed_parsing = none) →
      ly_ctx_get_module_implemented ctx name = some mi →
      mi.revision ≠ m.revision →
      lysp_load_module ctx name (some r) true require_parsed none acquire =
        (LY_EDENIED, none, some .implementedCollision)) := by
  constructor
  · intro hget himp _
    unfold lysp_load_module
    simp only [hget]
    unfold loadModuleAcquire
    rw [if_pos ⟨rfl, by rw [himp]; rfl⟩]
  · intro m hget hrp himp hrev
    have hne : mi ≠ m := fun he => hrev (he ▸ rfl)
    unfold lysp_load_module
    simp only [hget, if_neg hrp, himp]
    rw [if_pos (by simp [bne_iff_ne, hne])]

theorem lysp_load_module_implemented_collision_witness :
    lysp_load_module
        [⟨"a", some "2019-01-01", true, some false, 0⟩] "a" (some "2020-01-01")
        true false none none =
      (LY_EDENIED, none, some .implementedCollision) ∧
    lysp_load_module
        [⟨"a", some "2019-01-01", true, some false, 0⟩,
         ⟨"a", some "2020-01-01", false, some false, 0⟩] "a" (some "2020-01-01")
        true false none none =
      (LY_EDENIED, none, some .implementedCollision) :=
  ⟨(lysp_load_module_implemented_collision _ "a" "2020-01-01" false none
      ⟨"a", some "2019-01-01", true, some false, 0⟩).1
      (by decide) (by decide) (by decide),
   (lysp_load_module_implemented_collision _ "a" "2020-01-01" false none
      ⟨"a", some "2019-01-01", true, some false, 0⟩).2
      ⟨"a", some "2020-01-01", false, some false, 0⟩
      (by decide) (by decide) (by decide) (by decide)⟩

/-- The context of the C4 counterexample: an implemented 2019 revision of
module "a" next to a non-implemented 2020 revision that is currently
being parsed. -/
def ctxC4 : List LysModule :=
  [⟨"a", some "2019-01-01", true, some false, 0⟩,
   ⟨"a", some "2020-01-01", false, some true, 0⟩]

/-- C4 counterexample: the requested module is found in the registry and
its parsed facet has `parsing = true`, yet the loader does not fail with
the import-cycle error — the implemented-revision collision check fires
first and returns `LY_EDENIED` with its own diagnostic. -/
theorem lysp_load_module_cycle_counterexample :
    ly_ctx_get_module ctxC4 "a" "2020-01-01" =
      some ⟨"a", some "2020-01-01", false, some true, 0⟩ ∧
    (⟨"a", some "2020-01-01", false, some true, 0⟩ : LysModule).parsed_parsing = some true ∧
    lysp_load_module ctxC4 "a" (some "2020-01-01") true false none none =
      (LY_EDENIED, none, some .implementedCollision) := by
  decide

/-- C4 (amended): when the loader finds the requested module in the
context with `parsed.parsing = true`, it fails with the import-cycle
error (`LY_EVALID`, circular-import diagnostic) and a null `*mod` —
provided the implemented-revision collision check does not fire first
(`implement` unset, or no implemented revision of the name other than the
found module itself). -/
theorem lysp_load_module_cycle (ctx : List LysModule) (name : String) (r : String)
    (implement require_parsed : Bool) (acquire : Option LysModule) (m : LysModule)
    (hfound : ly_ctx_get_module ctx name r = some m)
    (hparsing : m.parsed_parsing = some true)
    (himp : implement = false ∨ ly_ctx_get_module_implemented ctx name = none ∨
            ly_ctx_get_module_implemented ctx name = some m) :
    lysp_load_module ctx name (some r) implement require_parsed none acquire =
      (LY_EVALID, none, some .circularImport) := by
  have hrp : ¬ (require_parsed = true ∧ m.parsed_parsing = none) := by
    rw [hparsing]; rintro ⟨-, h⟩; cases h
  unfold lysp_load_module
  rcases himp with h | h | h <;>
    simp [hfound, hrp, h, hparsing]

theorem lysp_load_module_cycle_witness :
    lysp_load_module [⟨"a", some "2020-01-01", true, some true, 0⟩] "a"
        (some "2020-01-01") true false none none =
      (LY_EVALID, none, some .circularImport) :=
  lysp_load_module_cycle [⟨"a", some "2020-01-01", true, some true, 0⟩] "a"
    "2020-01-01" true false none ⟨"a", some "2020-01-01", true, some true, 0⟩
    (by decide) (by decide) (Or.inr (Or.inr (by decide)))

/-! ## Schema-nodeid resolution (`lys_resolve_schema_nodeid`) -/

/-- Modelled from the spec: the `LYSC_OPT_*` result-flag bits and the
`LYS_GETNEXT_OUTPUT` option of the absent internal headers; only their
distinctness as bits matters. -/
def LYSC_OPT_RPC_INPUT : Nat := 0x1
def LYSC_OPT_RPC_OUTPUT : Nat := 0x2
def LYSC_OPT_NOTIFICATION : Nat := 0x4
def LYS_GETNEXT_OUTPUT : Nat := 0x1

/-- A compiled schema node (`struct lysc_node`), restricted to what the
resolver reads: nodetype, name, owning module (by id), children, and —
for an action — the output container's children (`childOut`; `child`
holds the input container's children, cf. `lysc_node_children_p`). -/
inductive LyscNode where
  | mk (nodetype : Nat) (name : List Char) (mod : Nat)
       (child : List LyscNode) (childOut : List LyscNode)

def LyscNode.nodetype : LyscNode → Nat
  | .mk nt _ _ _ _ => nt

def LyscNode.name : LyscNode → List Char
  | .mk _ nm _ _ _ => nm

def LyscNode.mod : LyscNode → Nat
  | .mk _ _ md _ _ => md

def LyscNode.child : LyscNode → List LyscNode
  | .mk _ _ _ ch _ => ch

def LyscNode.childOut : LyscNode → List LyscNode
  | .mk _ _ _ _ cho => cho

/-- The compiled-tree environment of one resolution: the top-level nodes
searched when the current node is absent (absolute paths). -/
structure ResolveEnv where
  topLevel : List LyscNode

/-- A context module as the resolver sees it (`struct lys_module`):
identity, its own prefix, its import list and the `implemented` flag. -/
structure CModule where
  id : Nat
  pfx : List Char
  imports : List (List Char × Nat)
  implemented : Bool

/-- Embedding of `lys_module_find_prefix` (the `FIND_MODULE` macro over
the compiled or parsed facet): the module's own prefix resolves to the
module itself (spec §4.B), otherwise the import list is scanned; the
result is the module's id. -/
def lys_module_find_prefix (cm : CModule) (pfx : List Char) : Option Nat :=
  if cm.pfx = pfx then some cm.id
  else
    match cm.imports.find? (fun p => p.1 = pfx) with
    | some p => some p.2
    | none => none

/-- Modelled from the spec: `lys_child` (not in the sources) — find the
first direct child of the node (top-level nodes when the node is absent)
whose name and owning module match; with `LYS_GETNEXT_WITHCHOICE` and
`LYS_GETNEXT_WITHCASE` always set by the resolver, choice and case nodes
are candidates themselves; for an action, `LYS_GETNEXT_OUTPUT` selects
the output container's children instead of the input's. -/
def lys_child (node : Option LyscNode) (env : ResolveEnv) (mod : Nat)
    (name : List Char) (opts : Nat) : Option LyscNode :=
  let children :=
    match node with
    | none => env.topLevel
    | some n =>
      if n.nodetype = LYS_ACTION ∧ opts &&& LYS_GETNEXT_OUTPUT ≠ 0 then n.childOut
      else n.child
  children.find? (fun c => decide (c.name = name ∧ c.mod = mod))

/-- The `getnext` arm of the resolver's loop body: look the segment up
among the children, reset the extra flag, record the notification flag. -/
def resolveGetnext (env : ResolveEnv) (context_node : Option LyscNode) (mod : Nat)
    (name : List Char) (result_flag getnext_extra_flag : Nat) :
    Except LY_ERR (Option LyscNode × Nat × Nat × Nat) :=
  match lys_child context_node env mod name getnext_extra_flag with
  | none => .error LY_ENOTFOUND
  | some nd =>
    let rf := if nd.nodetype = LYS_NOTIF then result_flag ||| LYSC_OPT_NOTIFICATION
              else result_flag
    .ok (some nd, rf, 0, nd.nodetype)

/-- One iteration of the loop body of `lys_resolve_schema_nodeid` after
`lys_parse_nodeid`: resolve the segment's prefix (`LY_ENOTFOUND` on a
miss; no prefix means the context module), then — when the current node
is an action — the `strncmp("input", name, name_len)` /
`strncmp("output", name, name_len)` special comparisons, which compare
only `name_len` bytes and therefore accept any prefix of the literal;
otherwise the `getnext` child lookup.  Returns the updated
`(context_node, result_flag, getnext_extra_flag, current_nodetype)`.
(The `implement` side effect touches only the context and has no modelled
output.) -/
def resolveStep (env : ResolveEnv) (context_module : CModule)
    (context_node : Option LyscNode) (pfx : Option (List Char)) (name : List Char)
    (result_flag getnext_extra_flag : Nat) :
    Except LY_ERR (Option LyscNode × Nat × Nat × Nat) :=
  let modRes : Option Nat :=
    match pfx with
    | some p => lys_module_find_prefix context_module p
    | none => some context_module.id
  match modRes with
  | none => .error LY_ENOTFOUND
  | some mod =>
    match context_node with
    | some cn =>
      if cn.nodetype = LYS_ACTION then
        if name.isPrefixOf "input".toList then
          .ok (some cn, result_flag ||| LYSC_OPT_RPC_INPUT, getnext_extra_flag, LYS_INOUT)
        else if name.isPrefixOf "output".toList then
          .ok (some cn, result_flag ||| LYSC_OPT_RPC_OUTPUT, LYS_GETNEXT_OUTPUT, LYS_INOUT)
        else
          resolveGetnext env (some cn) mod name result_flag getnext_extra_flag
      else
        resolveGetnext env (some cn) mod name result_flag getnext_extra_flag
    | none => resolveGetnext env none mod name result_flag getnext_extra_flag

/-- The `while` loop of `lys_resolve_schema_nodeid`: `ret` is the C's
`ret` variable (initially `LY_EVALID`), `consumed` the distance `id -
nodeid`; returns `(ret, context_node, result_flag, current_nodetype)` at
loop exit.  `fuel` bounds the iterations; every iteration consumes at
least one character of `id`, so the wrapper's `id.length + 1` can never
run out (the fuel-exhausted arm is unreachable). -/
def resolveLoop (env : ResolveEnv) (cm : CModule) (nodeid_len : Nat) :
    Nat → List Char → Nat → Option LyscNode → Nat → Nat → Nat → LY_ERR →
    LY_ERR × Option LyscNode × Nat × Nat
  | 0, _, _, context_node, result_flag, _, current_nodetype, ret =>
    (ret, context_node, result_flag, current_nodetype)
  | fuel + 1, id, consumed, context_node, result_flag, getnext_extra_flag,
      current_nodetype, ret =>
    if id = [] then (ret, context_node, result_flag, current_nodetype)
    else
      match lys_parse_nodeid id with
      | none => (LY_EINVAL, context_node, result_flag, current_nodetype)
      | some (pfx, name, rest) =>
        match resolveStep env cm context_node pfx name result_flag getnext_extra_flag with
        | .error e => (e, context_node, result_flag, current_nodetype)
        | .ok (cn2, rf2, gef2, ct2) =>
          let consumed2 := consumed + (id.length - rest.length)
          if rest = [] ∨ (nodeid_len ≠ 0 ∧ nodeid_len ≤ consumed2) then
            (LY_SUCCESS, cn2, rf2, ct2)
          else
            match rest with
            | '/' :: rest2 =>
              resolveLoop env cm nodeid_len fuel rest2 (consumed2 + 1) cn2 rf2 gef2 ct2
                LY_SUCCESS
            | _ => (LY_EVALID, cn2, rf2, ct2)

/-- `*id == c` on a possibly exhausted cursor (the NUL terminator never
equals `'/'`). -/
def headIs (s : List Char) (c : Char) : Bool :=
  match s with
  | [] => false
  | x :: _ => x = c

/-- Embedding of `lys_resolve_schema_nodeid`: the absolute/descendant
leading-`'/'` checks, the segment loop, and the final acceptable-nodetype
mask check (`LY_EDENIED` on a miss).  Returns
`(LY_ERR, *target, *result_flag)`. -/
def lys_resolve_schema_nodeid (env : ResolveEnv) (nodeid : List Char)
    (nodeid_len : Nat) (context_node : Option LyscNode) (context_module : CModule)
    (nodetype : Nat) : LY_ERR × Option LyscNode × Nat :=
  let run : List Char → Nat → LY_ERR × Option LyscNode × Nat := fun startId startConsumed =>
    match resolveLoop env context_module nodeid_len (startId.length + 1) startId
        startConsumed context_node 0 0 0 LY_EVALID with
    | (ret, cn, rf, ct) =>
      if ret = LY_SUCCESS then
        if nodetype ≠ 0 ∧ ct &&& nodetype = 0 then (LY_EDENIED, cn, rf)
        else (LY_SUCCESS, cn, rf)
      else (ret, none, rf)
  match context_node with
  | some _ =>
    if headIs nodeid '/' then (LY_EVALID, none, 0)
    else run nodeid 0
  | none =>
    if ¬ headIs nodeid '/' then (LY_EVALID, none, 0)
    else run nodeid.tail 1

/-- C5: the resolver rejects, before any segment processing, an absolute
nodeid (no context node) that does not start with `'/'` and a descendant
nodeid (context node present) that does; and when the loop consumes the
whole nodeid successfully, a nonzero acceptable-type mask missing the
final node's nodetype makes it return `LY_EDENIED`. -/
theorem lys_resolve_schema_nodeid_checks (env : ResolveEnv) (nodeid : List Char)
    (nodeid_len : Nat) (cm : CModule) (mask : Nat) :
    (headIs nodeid '/' = false →
      lys_resolve_schema_nodeid env nodeid nodeid_len none cm mask =
        (LY_EVALID, none, 0)) ∧
    (∀ cn, headIs nodeid '/' = true →
      lys_resolve_schema_nodeid env nodeid nodeid_len (some cn) cm mask =
        (LY_EVALID, none, 0)) ∧
    (∀ cn rf ct, headIs nodeid '/' = true →
      resolveLoop env cm nodeid_len (nodeid.tail.length + 1) nodeid.tail 1 none
          0 0 0 LY_EVALID =
        (LY_SUCCESS, cn, rf, ct) →
      mask ≠ 0 → ct &&& mask = 0 →
      lys_resolve_schema_nodeid env nodeid nodeid_len none cm mask =
        (LY_EDENIED, cn, rf)) ∧
    (∀ c0 cn rf ct, headIs nodeid '/' = false →
      resolveLoop env cm nodeid_len (nodeid.length + 1) nodeid 0 (some c0)
          0 0 0 LY_EVALID =
        (LY_SUCCESS, cn, rf, ct) →
      mask ≠ 0 → ct &&& mask = 0 →
      lys_resolve_schema_nodeid env nodeid nodeid_len (some c0) cm mask =
        (LY_EDENIED, cn, rf)) := by
  refine ⟨?_, ?_, ?_, ?_⟩
  · intro h
    unfold lys_resolve_schema_nodeid
    simp [h]
  · intro cn h
    unfold lys_resolve_schema_nodeid
    simp [h]
  · intro cn rf ct h hl hm hz
    rw [List.length_tail] at hl
    unfold lys_resolve_schema_nodeid
    simp [h, hl, hm, hz]
  · intro c0 cn rf ct h hl hm hz
    unfold lys_resolve_schema_nodeid
    simp [h, hl, hm, hz]

/-- The compiled tree of the C5 witness: one top-level container `c` of
module 1. -/
def envC5 : ResolveEnv := ⟨[LyscNode.mk LYS_CONTAINER "c".toList 1 [] []]⟩

/-- The context module of the C5/C10 witnesses. -/
def cmC5 : CModule := ⟨1, "m".toList, [], true⟩

theorem lys_resolve_schema_nodeid_checks_witness :
    lys_resolve_schema_nodeid envC5 "c".toList 0 none cmC5 0 = (LY_EVALID, none, 0) ∧
    lys_resolve_schema_nodeid envC5 "/c".toList 0
        (some (LyscNode.mk LYS_CONTAINER "c".toList 1 [] [])) cmC5 0 =
      (LY_EVALID, none, 0) ∧
    lys_resolve_schema_nodeid envC5 "/c".toList 0 none cmC5 LYS_LEAF =
      (LY_EDENIED, some (LyscNode.mk LYS_CONTAINER "c".toList 1 [] []), 0) := by
  refine ⟨(lys_resolve_schema_nodeid_checks envC5 "c".toList 0 cmC5 0).1 rfl,
    (lys_resolve_schema_nodeid_checks envC5 "/c".toList 0 cmC5 0).2.1 _ rfl,
    (lys_resolve_schema_nodeid_checks envC5 "/c".toList 0 cmC5 LYS_LEAF).2.2.1
      _ _ _ rfl rfl (by decide) (by decide)⟩

/-- C10: in the resolver's loop body, when the current node is an
action/RPC the input/output comparison (`strncmp` bounded by the
segment's own length) accepts any prefix of the literal: a nonempty
segment that is a prefix of "input" sets the rpc-input result flag
(staying at the action node with `current_nodetype = LYS_INOUT`), and a
segment that is a prefix of "output" but not of "input" sets the
rpc-output flag and the output getnext option. -/
theorem resolveStep_action_special (env : ResolveEnv) (cm : CModule) (cn : LyscNode)
    (name : List Char) (rf gef : Nat)
    (hact : cn.nodetype = LYS_ACTION) (hne : name ≠ []) :
    (name.isPrefixOf "input".toList = true →
      resolveStep env cm (some cn) none name rf gef =
        .ok (some cn, rf ||| LYSC_OPT_RPC_INPUT, gef, LYS_INOUT)) ∧
    (name.isPrefixOf "input".toList = false →
      name.isPrefixOf "output".toList = true →
      resolveStep env cm (some cn) none name rf gef =
        .ok (some cn, rf ||| LYSC_OPT_RPC_OUTPUT, LYS_GETNEXT_OUTPUT, LYS_INOUT)) := by
  constructor
  · intro h
    have h' : name <+: ['i', 'n', 'p', 'u', 't'] := by
      simpa using List.isPrefixOf_iff_prefix.mp h
    unfold resolveStep
    simp [hact, h']
  · intro h1 h2
    have h1' : ¬ name <+: ['i', 'n', 'p', 'u', 't'] := by
      intro hc
      have : name.isPrefixOf "input".toList = true :=
        List.isPrefixOf_iff_prefix.mpr (by simpa using hc)
      rw [h1] at this
      cases this
    have h2' : name <+: ['o', 'u', 't', 'p', 'u', 't'] := by
      simpa using List.isPrefixOf_iff_prefix.mp h2
    unfold resolveStep
    simp [hact, h1', h2']

/-- The action node of the C10 witness: `rpc doit { input { leaf a; } }`. -/
def actC10 : LyscNode :=
  LyscNode.mk LYS_ACTION "doit".toList 1
    [LyscNode.mk LYS_LEAF "a".toList 1 [] []] []

set_option maxRecDepth 4096 in
theorem resolveStep_action_special_witness :
    resolveStep ⟨[]⟩ cmC5 (some actC10) none "in".toList 0 0 =
      .ok (some actC10, LYSC_OPT_RPC_INPUT, 0, LYS_INOUT) ∧
    resolveStep ⟨[]⟩ cmC5 (some actC10) none "out".toList 0 0 =
      .ok (some actC10, LYSC_OPT_RPC_OUTPUT, LYS_GETNEXT_OUTPUT, LYS_INOUT) ∧
    lys_resolve_schema_nodeid ⟨[]⟩ "in/a".toList 0 (some actC10) cmC5 0 =
      (LY_SUCCESS, some (LyscNode.mk LYS_LEAF "a".toList 1 [] []), LYSC_OPT_RPC_INPUT) := by
  refine ⟨?_, ?_, ?_⟩
  · exact (resolveStep_action_special ⟨[]⟩ cmC5 actC10 "in".toList 0 0 rfl
      (by decide)).1 (by decide)
  · exact (resolveStep_action_special ⟨[]⟩ cmC5 actC10 "out".toList 0 0 rfl
      (by decide)).2 (by decide) (by decide)
  · rfl

/-! ## Keyword recognition (`match_keyword`) -/

/-- The `enum yang_keyword` values returned by `match_keyword`:
`noKeyword` is `YANG_NONE`, `custom` is `YANG_CUSTOM` (prefixed vendor
extension), the rest are the YANG statement keywords. -/
inductive YangKeyword where
  | noKeyword
  | custom
  | kwArgument | kwAugment | kwAction | kwAnydata | kwAnyxml
  | kwBase | kwBelongsTo | kwBit
  | kwCase | kwChoice | kwConfig | kwContact | kwContainer
  | kwDefault | kwDescription | kwDeviate | kwDeviation
  | kwEnum | kwErrorAppTag | kwErrorMessage | kwExtension
  | kwFeature | kwFractionDigits
  | kwGrouping
  | kwIdentity | kwIfFeature | kwImport | kwInclude | kwInput
  | kwKey
  | kwLeafList | kwLeaf | kwLength | kwList
  | kwMandatory | kwMaxElements | kwMinElements | kwMust | kwModule | kwModifier
  | kwNamespace | kwNotification
  | kwOrderedBy | kwOrganization | kwOutput
  | kwPath | kwPattern | kwPosition | kwPref | kwPresence
  | kwRange | kwReference | kwRefine | kwRequireInstance
  | kwRevisionDate | kwRevision | kwRpc
  | kwStatus | kwSubmodule
  | kwTypedef | kwType
  | kwUnique | kwUnits | kwUses
  | kwValue
  | kwWhen
  | kwYangVersion | kwYinElement
  deriving DecidableEq, Repr

open YangKeyword

/-- The full spelling of each keyword (no spelling for `noKeyword` and
`custom`). -/
def spell : YangKeyword → Option (List Char)
  | noKeyword => none
  | custom => none
  | kwArgument => some "argument".toList
  | kwAugment => some "augment".toList
  | kwAction => some "action".toList
  | kwAnydata => some "anydata".toList
  | kwAnyxml => some "anyxml".toList
  | kwBase => some "base".toList
  | kwBelongsTo => some "belongs-to".toList
  | kwBit => some "bit".toList
  | kwCase => some "case".toList
  | kwChoice => some "choice".toList
  | kwConfig => some "config".toList
  | kwContact => some "contact".toList
  | kwContainer => some "container".toList
  | kwDefault => some "default".toList
  | kwDescription => some "description".toList
  | kwDeviate => some "deviate".toList
  | kwDeviation => some "deviation".toList
  | kwEnum => some "enum".toList
  | kwErrorAppTag => some "error-app-tag".toList
  | kwErrorMessage => some "error-message".toList
  | kwExtension => some "extension".toList
  | kwFeature => some "feature".toList
  | kwFractionDigits => some "fraction-digits".toList
  | kwGrouping => some "grouping".toList
  | kwIdentity => some "identity".toList
  | kwIfFeature => some "if-feature".toList
  | kwImport => some "import".toList
  | kwInclude => some "include".toList
  | kwInput => some "input".toList
  | kwKey => some "key".toList
  | kwLeafList => some "leaf-list".toList
  | kwLeaf => some "leaf".toList
  | kwLength => some "length".toList
  | kwList => some "list".toList
  | kwMandatory => some "mandatory".toList
  | kwMaxElements => some "max-elements".toList
  | kwMinElements => some "min-elements".toList
  | kwMust => some "must".toList
  | kwModule => some "module".toList
  | kwModifier => some "modifier".toList
  | kwNamespace => some "namespace".toList
  | kwNotification => some "notification".toList
  | kwOrderedBy => some "ordered-by".toList
  | kwOrganization => some "organization".toList
  | kwOutput => some "output".toList
  | kwPath => some "path".toList
  | kwPattern => some "pattern".toList
  | kwPosition => some "position".toList
  | kwPref => some "prefix".toList
  | kwPresence => some "presence".toList
  | kwRange => some "range".toList
  | kwReference => some "reference".toList
  | kwRefine => some "refine".toList
  | kwRequireInstance => some "require-instance".toList
  | kwRevisionDate => some "revision-date".toList
  | kwRevision => some "revision".toList
  | kwRpc => some "rpc".toList
  | kwStatus => some "status".toList
  | kwSubmodule => some "submodule".toList
  | kwTypedef => some "typedef".toList
  | kwType => some "type".toList
  | kwUnique => some "unique".toList
  | kwUnits => some "units".toList
  | kwUses => some "uses".toList
  | kwValue => some "value".toList
  | kwWhen => some "when".toList
  | kwYangVersion => some "yang-version".toList
  | kwYinElement => some "yin-element".toList

/-- The shape of the hand-rolled keyword matcher of `match_keyword`: an
if/else chain (right-nested) of `IF_KEYWORD(pat, kw)` leaves and
`IF_KEYWORD_PREFIX(pat) {...}` groups; the outer `switch` on the first
character is the chain of one-character prefix groups. -/
inductive KwTrie where
  | stop
  | leafK (pat : List Char) (k : YangKeyword) (rest : KwTrie)
  | preK (pat : List Char) (children : KwTrie) (rest : KwTrie)

/-- The interpreter of the `IF_KEYWORD` / `IF_KEYWORD_PREFIX` chain
semantics: the first alternative whose pattern is a prefix of the input
wins and consumes it (`MOVE_IN`); a prefix group whose inner chain fails
still consumed its pattern and leaves `kw == YANG_NONE`.  Returns the
consumed length and the keyword, `none` when no alternative matched
(`data` unmoved, `kw` still `YANG_NONE`). -/
def runChain : KwTrie → List Char → Option (Nat × YangKeyword)
  | .stop, _ => none
  | .leafK pat k rest, s =>
    if pat.isPrefixOf s then some (pat.length, k) else runChain rest s
  | .preK pat children rest, s =>
    if pat.isPrefixOf s then
      match runChain children (s.drop pat.length) with
      | some (n, k) => some (pat.length + n, k)
      | none => some (pat.length, noKeyword)
    else runChain rest s

/-- The keyword table of `match_keyword`, transcribed case for case and
line for line from the C (`switch (*data)` with its `IF_KEYWORD` /
`IF_KEYWORD_PREFIX` chains, in source order). -/
def kwTrie : KwTrie :=
  .preK ['a']
    (.leafK "rgument".toList kwArgument
     (.leafK "ugment".toList kwAugment
      (.leafK "ction".toList kwAction
       (.preK "ny".toList
         (.leafK "data".toList kwAnydata
          (.leafK "xml".toList kwAnyxml .stop))
        .stop))))
  (.preK ['b']
    (.leafK "ase".toList kwBase
     (.leafK "elongs-to".toList kwBelongsTo
      (.leafK "it".toList kwBit .stop)))
  (.preK ['c']
    (.leafK "ase".toList kwCase
     (.leafK "hoice".toList kwChoice
      (.preK "on".toList
        (.leafK "fig".toList kwConfig
         (.preK "ta".toList
           (.leafK "ct".toList kwContact
            (.leafK "iner".toList kwContainer .stop))
          .stop))
       .stop)))
  (.preK ['d']
    (.preK ['e']
      (.leafK "fault".toList kwDefault
       (.leafK "scription".toList kwDescription
        (.preK "viat".toList
          (.leafK ['e'] kwDeviate
           (.leafK "ion".toList kwDeviation .stop))
         .stop)))
     .stop)
  (.preK ['e']
    (.leafK "num".toList kwEnum
     (.preK "rror-".toList
       (.leafK "app-tag".toList kwErrorAppTag
        (.leafK "message".toList kwErrorMessage .stop))
      (.leafK "xtension".toList kwExtension .stop)))
  (.preK ['f']
    (.leafK "eature".toList kwFeature
     (.leafK "raction-digits".toList kwFractionDigits .stop))
  (.preK ['g']
    (.leafK "rouping".toList kwGrouping .stop)
  (.preK ['i']
    (.leafK "dentity".toList kwIdentity
     (.leafK "f-feature".toList kwIfFeature
      (.leafK "mport".toList kwImport
       (.preK ['n']
         (.leafK "clude".toList kwInclude
          (.leafK "put".toList kwInput .stop))
        .stop))))
  (.preK ['k']
    (.leafK "ey".toList kwKey .stop)
  (.preK ['l']
    (.preK ['e']
      (.leafK "af-list".toList kwLeafList
       (.leafK "af".toList kwLeaf
        (.leafK "ngth".toList kwLength .stop)))
     (.leafK "ist".toList kwList .stop))
  (.preK ['m']
    (.preK ['a']
      (.leafK "ndatory".toList kwMandatory
       (.leafK "x-elements".toList kwMaxElements .stop))
     (.leafK "in-elements".toList kwMinElements
      (.leafK "ust".toList kwMust
       (.preK "od".toList
         (.leafK "ule".toList kwModule
          (.leafK "ifier".toList kwModifier .stop))
        .stop))))
  (.preK ['n']
    (.leafK "amespace".toList kwNamespace
     (.leafK "otification".toList kwNotification .stop))
  (.preK ['o']
    (.preK ['r']
      (.leafK "dered-by".toList kwOrderedBy
       (.leafK "ganization".toList kwOrganization .stop))
     (.leafK "utput".toList kwOutput .stop))
  (.preK ['p']
    (.leafK "ath".toList kwPath
     (.leafK "attern".toList kwPattern
      (.leafK "osition".toList kwPosition
       (.preK "re".toList
         (.leafK "fix".toList kwPref
          (.leafK "sence".toList kwPresence .stop))
        .stop))))
  (.preK ['r']
    (.leafK "ange".toList kwRange
     (.preK ['e']
       (.preK ['f']
         (.leafK "erence".toList kwReference
          (.leafK "ine".toList kwRefine .stop))
        (.leafK "quire-instance".toList kwRequireInstance
         (.leafK "vision-date".toList kwRevisionDate
          (.leafK "vision".toList kwRevision .stop))))
      (.leafK "pc".toList kwRpc .stop)))
  (.preK ['s']
    (.leafK "tatus".toList kwStatus
     (.leafK "ubmodule".toList kwSubmodule .stop))
  (.preK ['t']
    (.leafK "ypedef".toList kwTypedef
     (.leafK "ype".toList kwType .stop))
  (.preK ['u']
    (.preK "ni".toList
      (.leafK "que".toList kwUnique
       (.leafK "ts".toList kwUnits .stop))
     (.leafK "ses".toList kwUses .stop))
  (.preK ['v']
    (.leafK "alue".toList kwValue .stop)
  (.preK ['w']
    (.leafK "hen".toList kwWhen .stop)
  (.preK ['y']
    (.leafK "ang-version".toList kwYangVersion
     (.leafK "in-element".toList kwYinElement .stop))
   .stop))))))))))))))))))))

/-- Embedding of `match_keyword`: any prefixed keyword is
`YANG_CUSTOM`; otherwise the dispatch runs and the keyword is returned
only when `data - start == len` exactly. -/
def match_keyword (data : List Char) (len : Nat) (prefix_len : Nat) : YangKeyword :=
  if prefix_len ≠ 0 then custom
  else
    let r := (runChain kwTrie data).getD (0, noKeyword)
    if r.1 = len then r.2 else noKeyword

/-- Well-formedness of a chain relative to the already-consumed prefix:
every leaf's accumulated path is its keyword's full spelling. -/
def trieOk : List Char → KwTrie → Bool
  | _, .stop => true
  | pfx, .leafK pat k rest =>
    (spell k == some (pfx ++ pat)) && trieOk pfx rest
  | pfx, .preK pat children rest =>
    trieOk (pfx ++ pat) children && trieOk pfx rest

theorem kwTrie_ok : trieOk [] kwTrie = true := by decide

theorem runChain_sound (t : KwTrie) : ∀ (pfx s : List Char) (n : Nat) (k : YangKeyword),
    trieOk pfx t = true → runChain t s = some (n, k) → k ≠ noKeyword →
    spell k = some (pfx ++ s.take n) ∧ n ≤ s.length := by
  induction t with
  | stop =>
    intro pfx s n k _ hrun _
    cases hrun
  | leafK pat k0 rest ih =>
    intro pfx s n k hok hrun hne
    rw [trieOk, Bool.and_eq_true, beq_iff_eq] at hok
    rw [runChain] at hrun
    by_cases hp : pat.isPrefixOf s = true
    · rw [if_pos hp] at hrun
      obtain ⟨rfl, rfl⟩ : pat.length = n ∧ k0 = k := by
        simpa using hrun
      have hpre := List.isPrefixOf_iff_prefix.mp hp
      have htake : s.take pat.length = pat := (List.prefix_iff_eq_take.mp hpre).symm
      rw [htake]
      exact ⟨hok.1, hpre.length_le⟩
    · rw [if_neg hp] at hrun
      exact ih pfx s n k hok.2 hrun hne
  | preK pat children rest ihc ihr =>
    intro pfx s n k hok hrun hne
    rw [trieOk, Bool.and_eq_true] at hok
    rw [runChain] at hrun
    by_cases hp : pat.isPrefixOf s = true
    · rw [if_pos hp] at hrun
      have hpre := List.isPrefixOf_iff_prefix.mp hp
      have htake : s.take pat.length = pat := (List.prefix_iff_eq_take.mp hpre).symm
      cases hrc : runChain children (s.drop pat.length) with
      | none =>
        rw [hrc] at hrun
        obtain ⟨-, rfl⟩ : pat.length = n ∧ noKeyword = k := by simpa using hrun
        exact absurd rfl hne
      | some p =>
        obtain ⟨n0, k0⟩ := p
        rw [hrc] at hrun
        obtain ⟨hn, hkk⟩ : pat.length + n0 = n ∧ k0 = k := by simpa using hrun
        subst hn
        subst hkk
        obtain ⟨hs, hlen⟩ := ihc (pfx ++ pat) (s.drop pat.length) n0 k0 hok.1 hrc hne
        constructor
        · rw [hs, List.take_add, htake, List.append_assoc]
        · have := hpre.length_le
          rw [List.length_drop] at hlen
          omega
    · rw [if_neg hp] at hrun
      exact ihr pfx s n k hok.2 hrun hne

/-- C8: `match_keyword` returns `custom` for every call with a nonzero
prefix length; with no prefix it yields a keyword tag only when the tag's
full spelling is exactly the first `len` bytes of the input (otherwise
`noKeyword`); it is a total function, and the three boundary cases of the
spec hold: "leaf-list"/9, "leaf"/4, "leafx"/5. -/
theorem match_keyword_correct :
    (∀ (data : List Char) (len prefix_len : Nat), prefix_len ≠ 0 →
      match_keyword data len prefix_len = custom) ∧
    (∀ (data : List Char) (len : Nat) (k : YangKeyword),
      match_keyword data len 0 = k → k ≠ noKeyword →
      spell k = some (data.take len) ∧ (data.take len).length = len) ∧
    (∀ (data : List Char) (len prefix_len : Nat),
      ∃! k, match_keyword data len prefix_len = k) ∧
    match_keyword "leaf-list".toList 9 0 = kwLeafList ∧
    match_keyword "leaf".toList 4 0 = kwLeaf ∧
    match_keyword "leafx".toList 5 0 = noKeyword := by
  refine ⟨?_, ?_, ?_, by decide, by decide, by decide⟩
  · intro data len prefix_len h
    unfold match_keyword
    rw [if_pos h]
  · intro data len k hk hne
    unfold match_keyword at hk
    rw [if_neg (by simp)] at hk
    cases hrun : runChain kwTrie data with
    | none =>
      rw [hrun] at hk
      simp only [Option.getD_none] at hk
      split at hk <;> exact absurd hk.symm hne
    | some p =>
      obtain ⟨n0, k0⟩ := p
      rw [hrun] at hk
      simp only [Option.getD_some] at hk
      split at hk
      case isTrue hlen =>
        subst hk
        obtain ⟨hs, hle⟩ := runChain_sound kwTrie [] data n0 k0 kwTrie_ok hrun hne
        rw [List.nil_append] at hs
        rw [← hlen]
        exact ⟨hs, by rw [List.length_take]; omega⟩
      case isFalse => exact absurd hk.symm hne
  · intro data len prefix_len
    exact ⟨match_keyword data len prefix_len, rfl, fun k h => h.symm⟩

theorem lysp_type_find_eq_spec_witness :
    lysp_type_find (fun _ => none) "binary".toList none ⟨1, "p".toList, [], [], []⟩ =
      lysp_type_find_spec (fun _ => none) "binary".toList none ⟨1, "p".toList, [], [], []⟩ :=
  lysp_type_find_eq_spec (fun _ => none) "binary".toList none ⟨1, "p".toList, [], [], []⟩

theorem lysp_check_date_correct_witness :
    lysp_check_date "2018-02-28".toList ("2018-02-28".toList).length = LY_SUCCESS :=
  (lysp_check_date_correct.1 "2018-02-28".toList).mpr (by decide)

theorem match_keyword_correct_witness :
    match_keyword "leaf".toList 4 1 = custom ∧
    (spell kwLeafList = some ("leaf-list".toList.take 9) ∧
      ("leaf-list".toList.take 9).length = 9) :=
  ⟨match_keyword_correct.1 "leaf".toList 4 1 (by decide),
   match_keyword_correct.2.1 "leaf-list".toList 9 kwLeafList (by decide) (by decide)⟩

end LibYang
